import Mathlib

/-!
# Verification of the `apocalypse` actor runtime (broker, actor tasks, shutdown protocol)

A shallow embedding of the core of the `apocalypse` crate:

* `src/error.rs`               → `Apocalypse.Error`
* `src/hell.rs`                → `Apocalypse.HellState`, `Apocalypse.Hell.processInstruction`,
                                 `Apocalypse.Hell.run` (the broker instruction loop), and
                                 `Apocalypse.Extinguish.Step` (the extinguish cleanup phase)
* `src/hell/hell_instruction.rs` → `Apocalypse.HellInstruction`
* `src/hell/demon_channels.rs` → `Apocalypse.DemonChannels`
* `src/hell/mini_hell.rs`      → `Apocalypse.MiniHell.Step` (the per-actor task as a labelled
                                 transition system with ghost history fields)
* `src/hell/multiple_mini_hell.rs` → `Apocalypse.MultipleMiniHell.spawnModel`
* `src/gate.rs`                → `Apocalypse.Gate.sendResult`, `Apocalypse.Gate.boxInput`,
                                 `Apocalypse.Gate.downcastOutput`

Boxed `dyn Any` values are embedded as the two-constructor sum `AnyBox I O`: for a fixed
actor type only input-typed and output-typed payloads ever cross the boxing boundary, and
`downcast::<T>` succeeds exactly on the matching constructor.  Channels are embedded as
FIFO buffers (`List`) together with an open/closed flag; `tokio::select!` without `biased;`
is embedded as a nondeterministic choice among the ready branches of a step relation.
-/

namespace Apocalypse

/-- From `src/error.rs`: the error enum of the crate.  The source's io-error variant
is rendered `IOError` (its payload is dropped: no claim inspects the inner error). -/
inductive Error where
  | TokioSend (detail : String)
  | RecvError
  | IOError
  | WrongType
  | WrongReplicas
  | InvalidLocation
  | OccupiedAddress
  | DemonCommunication
deriving DecidableEq, Repr

/-- A boxed `Box<dyn Any + Send>` value crossing the typed boundary of one actor with
input type `I` and output type `O`: it holds either an input or an output, and a
`downcast` succeeds exactly when the constructor matches the requested type. -/
inductive AnyBox (I O : Type) where
  | inp (i : I)
  | out (o : O)
deriving DecidableEq, Repr

/-- `Box::downcast::<I>` on a boxed value (the input downcast in `MiniHell::ignite`). -/
def AnyBox.downcastInput {I O : Type} : AnyBox I O → Option I
  | .inp i => some i
  | .out _ => none

/-- `Box::downcast::<O>` on a boxed value (the output downcast in `Gate::send`). -/
def AnyBox.downcastOutput {I O : Type} : AnyBox I O → Option O
  | .inp _ => none
  | .out o => some o

/-- From `src/hell/demon_channels.rs`: the broker-side bundle of channels to one actor
task.  For the broker model only the liveness of the receiving ends matters: a tokio
`UnboundedSender::send` fails exactly when the receiver was dropped. -/
structure DemonChannels where
  /-- whether the actor task's instruction receiver is still alive -/
  instrOpen : Bool
  /-- whether the actor task's killswitch receiver is still alive -/
  killsOpen : Bool
deriving DecidableEq, Repr

/-- From `src/hell/hell_instruction.rs` and the handlers in `src/hell.rs`
(`Hell::ignite`).  Each oneshot reply channel is embedded as the flag telling whether
its receiving half is still alive when the broker replies (`txOpen`).  `Extinguish`
breaks the loop and is modelled by `Hell.run` stopping, so it is not listed here. -/
inductive HellInstruction where
  | createAddress (txOpen : Bool)
  | registerDemon (address : Nat) (dc : DemonChannels) (txOpen : Bool)
  | message (address : Nat) (ignore : Bool)
  | removeDemon (address : Nat) (ignore : Bool) (force : Option (Option Nat))
  | stats
deriving DecidableEq, Repr

/-- The observable decision the broker takes for one instruction (what it sends, or
fails to send, on the instruction's reply channel). -/
inductive HellEvent where
  /-- `CreateAddress`: the counter value was delivered to the caller -/
  | created (address : Nat)
  /-- `CreateAddress`: the reply channel was gone, the reservation is discarded -/
  | createDropped (address : Nat)
  /-- `RegisterDemon`: bundle inserted and confirmation delivered -/
  | registered (address : Nat)
  /-- `RegisterDemon`: the key was occupied, reply `Err(OccupiedAddress)` -/
  | occupied (address : Nat)
  /-- `RegisterDemon`: confirmation could not be delivered, entry rolled back -/
  | registerRolledBack (address : Nat)
  /-- `Message`: forwarded into the actor task's instruction channel -/
  | msgForwarded (address : Nat)
  /-- `Message`: the actor task's channel was closed; the reply sender is dropped
  inside the unsent instruction, so the caller never receives a reply -/
  | msgDropped (address : Nat)
  /-- `Message`: address absent, reply `Err(InvalidLocation)` -/
  | msgInvalid (address : Nat)
  /-- `RemoveDemon`: entry popped and shutdown delivered to the actor task -/
  | removed (address : Nat)
  /-- `RemoveDemon`: entry popped but the shutdown instruction could not be delivered,
  reply `Err(DemonCommunication)` -/
  | removeNoComm (address : Nat)
  /-- `RemoveDemon`: address absent, reply `Err(InvalidLocation)` -/
  | removeInvalid (address : Nat)
  /-- `Stats`: snapshot sent -/
  | statsReported
deriving DecidableEq, Repr

/-- Registry lookup: `HashMap::get` / `entry` on the `demons` map, embedded over an
association list. -/
def regLookup (l : List (Nat × DemonChannels)) (a : Nat) : Option DemonChannels :=
  match l with
  | [] => none
  | (b, dc) :: rest => if a = b then some dc else regLookup rest a

/-- Registry removal: `HashMap::remove`.  Filtering drops every binding of the key, so
`regLookup` after `regErase` is `none` with no key-distinctness side condition. -/
def regErase (l : List (Nat × DemonChannels)) (a : Nat) : List (Nat × DemonChannels) :=
  l.filter (fun p => p.1 ≠ a)

/-- The broker state from `src/hell.rs` (`struct Hell` plus the counters it mutates
inside `ignite`).  The ignition timestamp is omitted: no claim depends on it. -/
structure HellState where
  counter : Nat
  demons : List (Nat × DemonChannels)
  successfulMessages : Nat
  failedMessages : Nat
  zombieCounter : Nat
deriving DecidableEq, Repr

/-- The broker state right after `Hell::builder().build()` / `Hell::new()`. -/
def HellState.initial : HellState :=
  { counter := 0, demons := [], successfulMessages := 0, failedMessages := 0,
    zombieCounter := 0 }

/-- One iteration of the instruction branch of the broker loop in `Hell::ignite`
(src/hell.rs lines 199-412), as a function from state and instruction to the next
state and the decision taken. -/
def Hell.processInstruction (s : HellState) : HellInstruction → HellState × HellEvent
  | .createAddress txOpen =>
      -- `let current_counter = self.counter; if tx.send(current_counter).is_ok()
      --  { self.counter += 1; }`
      if txOpen then
        ({ s with counter := s.counter + 1 }, .created s.counter)
      else
        (s, .createDropped s.counter)
  | .registerDemon a dc txOpen =>
      -- `match self.demons.entry(address) { Occupied => Err(OccupiedAddress),
      --  Vacant(v) => { v.insert(demon_channels); Ok(()) } }` followed by
      -- `if tx.send(added).is_err() { self.demons.remove(&address); }`
      match regLookup s.demons a with
      | some _ =>
          if txOpen then (s, .occupied a)
          else ({ s with demons := regErase s.demons a }, .occupied a)
      | none =>
          if txOpen then ({ s with demons := (a, dc) :: s.demons }, .registered a)
          else ({ s with demons := regErase ((a, dc) :: s.demons) a },
                .registerRolledBack a)
  | .message a _ignore =>
      -- `if let Some(demon_channels) = self.demons.get_mut(&address) { ...forward... }
      --  else { tx.send(Err(Error::InvalidLocation)) }`
      match regLookup s.demons a with
      | some dc =>
          if dc.instrOpen then
            ({ s with successfulMessages := s.successfulMessages + 1 }, .msgForwarded a)
          else
            -- `demon_channels.instructions.send(..).is_err()`: the reply sender is
            -- dropped with the undelivered instruction; nothing reaches the caller
            ({ s with failedMessages := s.failedMessages + 1 }, .msgDropped a)
      | none => (s, .msgInvalid a)
  | .removeDemon a ignore _force =>
      -- `let removed = self.demons.remove(&address); if let Some(demon_channels) =
      --  removed { ...send Shutdown... } else { tx.send(Err(InvalidLocation)) }`
      match regLookup s.demons a with
      | some dc =>
          let s' := { s with demons := regErase s.demons a }
          if dc.instrOpen then
            (if ignore then { s' with zombieCounter := s'.zombieCounter + 1 } else s',
             .removed a)
          else
            (s', .removeNoComm a)
      | none => (s, .removeInvalid a)
  | .stats => (s, .statsReported)

/-- The broker loop over a list of instructions: a single total order of processing,
mirroring `loop { tokio::select! { value = instructions.recv() => ... } }`. -/
def Hell.run (s : HellState) : List HellInstruction → HellState × List HellEvent
  | [] => (s, [])
  | i :: rest =>
      let (s', e) := Hell.processInstruction s i
      let (s'', es) := Hell.run s' rest
      (s'', e :: es)

/-! ## `Gate::send` and the boxing/downcast pipeline -/

/-- `Gate::send` boxes the typed input before handing it to the broker
(`input: Box::new(message)` in src/gate.rs). -/
def Gate.boxInput {I O : Type} (v : I) : AnyBox I O := .inp v

/-- The message-processing body of `MiniHell::ignite` (src/hell/mini_hell.rs lines
63-94) on one dequeued boxed message, no killswitch interference: downcast the input,
run `handle`, box the output; on downcast failure reply `Err(WrongType)`.  Actor
behaviour is the state-passing function `handle : D → I → O × D` (`&mut self` receiver
plus return value). -/
def MiniHell.handleBoxed {D I O : Type} (handle : D → I → O × D) (d : D)
    (b : AnyBox I O) : Except Error (AnyBox I O) × D :=
  match b.downcastInput with
  | some i => (.ok (.out (handle d i).1), (handle d i).2)
  | none => (.error .WrongType, d)

/-- The result `Gate::send` returns to the caller (src/gate.rs lines 66-88) after the
broker processed the corresponding `Message` instruction in state `s`:

* broker replied `Err(InvalidLocation)` → that error surfaces through the inner `?`;
* broker dropped the reply sender without answering (forward into a closed actor
  channel) → `rx.await` fails with a `RecvError` (whose `Display` is exactly
  `"channel closed"`), mapped to `Error::TokioSend` by the outer `map_err`;
* forwarded → the actor's eventual reply `demonReply` comes back and the opaque
  output is downcast to `O`, `Err(WrongType)` on mismatch. -/
def Gate.sendResult {I O : Type} (s : HellState) (a : Nat)
    (demonReply : Except Error (AnyBox I O)) : Except Error O :=
  match (Hell.processInstruction s (.message a false)).2 with
  | .msgInvalid _ => .error .InvalidLocation
  | .msgDropped _ => .error (.TokioSend "channel closed")
  | .msgForwarded _ =>
      match demonReply with
      | .error e => .error e
      | .ok b =>
          match b.downcastOutput with
          | some o => .ok o
          | none => .error .WrongType
  | _ => .error (.TokioSend "channel closed")

/-- The full round trip of one `Gate::send` through a live single actor: box the
input, let the `MiniHell` body downcast/handle/box, downcast the output. -/
def Gate.sendRoundTrip {D I O : Type} (handle : D → I → O × D) (d : D)
    (s : HellState) (a : Nat) (v : I) : Except Error O :=
  Gate.sendResult s a (MiniHell.handleBoxed handle d (Gate.boxInput v)).1

/-! ## `MultipleMiniHell::spawn` (src/hell/multiple_mini_hell.rs lines 19-42) -/

/-- `(0..replicas).map(|idx| (idx, demon_factory()))`: the `FnMut` factory is embedded
as a state-passing function `F → D × F` invoked once per replica, left to right. -/
def MultipleMiniHell.buildReplicas {D F : Type} (factory : F → D × F) :
    Nat → F → List D × F
  | 0, f => ([], f)
  | n + 1, f =>
      let (d, f') := factory f
      let (ds, f'') := MultipleMiniHell.buildReplicas factory n f'
      (d :: ds, f'')

/-- `MultipleMiniHell::spawn`: builds the replica pool and returns the channel bundle.
The source performs no validation of `replicas` whatsoever and never constructs
`Error::WrongReplicas`; its `Result` return is always `Ok`. -/
def MultipleMiniHell.spawnModel {D F : Type} (factory : F → D × F) (replicas : Nat)
    (f : F) : Except Error (List (Nat × D) × F) :=
  let (ds, f') := MultipleMiniHell.buildReplicas factory replicas f
  .ok ((List.range replicas).zip ds, f')

/-- `Gate::spawn_multiple` (src/gate.rs lines 220-250): reserves `address`, calls
`MultipleMiniHell::spawn(demon_factory, replicas, location)?` and on success registers
the bundle and hands the `Location` back.  Any error of the pool spawn would propagate
through the `?`. -/
def Gate.spawnMultipleResult {D F : Type} (factory : F → D × F) (replicas : Nat)
    (f : F) (address : Nat) : Except Error Nat :=
  (MultipleMiniHell.spawnModel factory replicas f).map (fun _ => address)

/-! ## `MiniHell::ignite` (src/hell/mini_hell.rs) as a transition system

The per-actor task is embedded as a small-step relation.  The state carries the
actor's channels (FIFO buffers plus open flags), the control point of the task, and
ghost history fields (`accepted`, `handled`, `replies`, `confirms`, `aborted`,
`hookRan`, `killArrived`, `shutdownArrived`, `ksExit`) recording the externally
observable events of a run.  `tokio::select!` carries no `biased;` flag in the
source, so every ready branch gives an enabled step. -/

/-- From `src/hell/mini_hell_instruction.rs`: the control values on the actor task's
instruction channel.  Oneshot senders are identified by numeric tokens: `vm` is the
shutdown-confirmation sender, `tx` the per-message reply sender. -/
inductive MiniHellInstruction (I O : Type) where
  | shutdown (vm : Nat)
  | message (tx : Nat) (payload : AnyBox I O)
deriving DecidableEq, Repr

/-- Control point of the `MiniHell::ignite` task:
* `main`: at the top of the 3-way `tokio::select!` loop (lines 52-123);
* `handling tx i`: inside the inner `handle`-versus-killswitch race (lines 67-82);
* `preVanquish vm killswitched`: the loop broke with `(vanquish_mailbox,
  killswitched)` and the task is about to run (or skip) the vanquish block
  (lines 125-149);
* `preConfirm vm`: past the vanquish block, about to signal `vanquish_mailbox`
  (lines 151-159);
* `finished`: the task returned. -/
inductive MiniPhase (I : Type) where
  | main
  | handling (tx : Nat) (i : I)
  | preVanquish (vm : Option Nat) (killswitched : Bool)
  | preConfirm (vm : Option Nat)
  | finished
deriving DecidableEq, Repr

instance instDecidableEqExcept {ε α : Type} [DecidableEq ε] [DecidableEq α] :
    DecidableEq (Except ε α) := fun x y =>
  match x, y with
  | .ok a, .ok b =>
      if h : a = b then .isTrue (by rw [h]) else .isFalse (by simp [h])
  | .error e, .error f =>
      if h : e = f then .isTrue (by rw [h]) else .isFalse (by simp [h])
  | .ok _, .error _ => .isFalse (by simp)
  | .error _, .ok _ => .isFalse (by simp)

/-- State of one `MiniHell` task plus ghost history of its observable events. -/
structure MiniState (D I O : Type) where
  /-- the owned actor instance (`self.demon`) -/
  demon : D
  phase : MiniPhase I
  /-- the internal re-injection mailbox (`mailbox`/`messages` local channel, line 42);
  its sender is owned by the task itself, so it is never closed while the task runs -/
  mailbox : List (Nat × AnyBox I O)
  /-- buffered, not-yet-dequeued values of the instruction channel -/
  instrBuf : List (MiniHellInstruction I O)
  /-- whether some sender of the instruction channel is still alive -/
  instrOpen : Bool
  /-- buffered killswitch messages (each carrying a confirmation sender token) -/
  killsBuf : List Nat
  /-- whether some sender of the killswitch channel is still alive -/
  killsOpen : Bool
  /-- next fresh reply-channel token (the broker creates a new oneshot per message) -/
  nextTx : Nat
  /-- ghost: payloads of `Message` instructions in broker-acceptance order -/
  accepted : List I
  /-- ghost: payloads on which `handle` was invoked, in invocation order -/
  handled : List I
  /-- ghost: values actually sent on reply channels, tagged by token -/
  replies : List (Nat × Except Error (AnyBox I O))
  /-- ghost: confirmation tokens signalled at exit -/
  confirms : List Nat
  /-- ghost: reply tokens of `handle` calls aborted by the killswitch race -/
  aborted : List Nat
  /-- ghost: whether `Demon::vanquished` ran to completion -/
  hookRan : Bool
  /-- ghost: whether any killswitch message was ever delivered into the channel -/
  killArrived : Bool
  /-- ghost: whether any `Shutdown` instruction was ever delivered into the channel -/
  shutdownArrived : Bool
  /-- ghost: the `killswitched` flag the main loop broke with, once it broke -/
  ksExit : Option Bool
deriving DecidableEq, Repr

/-- The task state right after `MiniHell::spawn` handed the channels to the broker
and `ignite` ran the `spawned` hook: empty buffers, both channels open. -/
def MiniState.initial {D I O : Type} (d : D) : MiniState D I O :=
  { demon := d, phase := .main, mailbox := [], instrBuf := [], instrOpen := true,
    killsBuf := [], killsOpen := true, nextTx := 0, accepted := [], handled := [],
    replies := [], confirms := [], aborted := [], hookRan := false,
    killArrived := false, shutdownArrived := false, ksExit := none }

/-- Small-step relation of the `MiniHell` task interacting with its environment
(the broker and the killswitch timer).  Environment steps (`env*`) model deliveries
into the channels and channel closure; the remaining steps are the task's own
transitions, one per ready `select!` branch or straight-line block of
`MiniHell::ignite`. -/
inductive MiniHell.Step {D I O : Type} (handle : D → I → O × D) :
    MiniState D I O → MiniState D I O → Prop where
  /-- the broker forwards `Message(tx, input)` into the instruction channel
  (accepting it, in hell.rs line 257); the reply oneshot is fresh -/
  | envAccept (s : MiniState D I O) (i : I) (ho : s.instrOpen = true) :
      MiniHell.Step handle s
        { s with instrBuf := s.instrBuf ++ [.message s.nextTx (.inp i)],
                 accepted := s.accepted ++ [i],
                 nextTx := s.nextTx + 1 }
  /-- the broker sends `Shutdown(demon_tx)` (hell.rs line 323) -/
  | envShutdown (s : MiniState D I O) (vm : Nat) (ho : s.instrOpen = true) :
      MiniHell.Step handle s
        { s with instrBuf := s.instrBuf ++ [.shutdown vm],
                 shutdownArrived := true }
  /-- the delayed killswitch task sends the killswitch (hell.rs line 305) -/
  | envKill (s : MiniState D I O) (vm : Nat) (ho : s.killsOpen = true) :
      MiniHell.Step handle s
        { s with killsBuf := s.killsBuf ++ [vm], killArrived := true }
  /-- the broker drops the `DemonChannels` bundle: the instruction sender closes -/
  | envCloseInstr (s : MiniState D I O) :
      MiniHell.Step handle s { s with instrOpen := false }
  /-- the broker drops the `DemonChannels` bundle: the killswitch sender closes -/
  | envCloseKills (s : MiniState D I O) :
      MiniHell.Step handle s { s with killsOpen := false }
  /-- main select, killswitch branch, `Some(vanquish_mailbox)` (lines 54-57):
  `break (Some vanquish_mailbox, true)` -/
  | killRecv (s : MiniState D I O) (vm : Nat) (rest : List Nat)
      (hp : s.phase = .main) (hb : s.killsBuf = vm :: rest) :
      MiniHell.Step handle s
        { s with phase := .preVanquish (some vm) true, killsBuf := rest,
                 ksExit := some true }
  /-- main select, killswitch branch, channel closed (lines 58-62):
  `break (None, true)` -/
  | killRecvClosed (s : MiniState D I O) (hp : s.phase = .main)
      (hb : s.killsBuf = []) (ho : s.killsOpen = false) :
      MiniHell.Step handle s
        { s with phase := .preVanquish none true, ksExit := some true }
  /-- main select, internal-mailbox branch, successful input downcast (lines 63-67):
  `handle` is invoked on the dequeued payload -/
  | deqHandle (s : MiniState D I O) (tx : Nat) (i : I)
      (rest : List (Nat × AnyBox I O)) (hp : s.phase = .main)
      (hm : s.mailbox = (tx, AnyBox.inp i) :: rest) :
      MiniHell.Step handle s
        { s with phase := .handling tx i, mailbox := rest,
                 handled := s.handled ++ [i] }
  /-- main select, internal-mailbox branch, failed input downcast (lines 89-94):
  reply `Err(WrongType)`, stay in the loop -/
  | deqWrongType (s : MiniState D I O) (tx : Nat) (o : O)
      (rest : List (Nat × AnyBox I O)) (hp : s.phase = .main)
      (hm : s.mailbox = (tx, AnyBox.out o) :: rest) :
      MiniHell.Step handle s
        { s with mailbox := rest,
                 replies := s.replies ++ [(tx, .error .WrongType)] }
  /-- main select, instruction branch, `Shutdown` (lines 102-106):
  `break (Some vanquish_mailbox, false)` -/
  | instrShutdown (s : MiniState D I O) (vm : Nat)
      (rest : List (MiniHellInstruction I O)) (hp : s.phase = .main)
      (hi : s.instrBuf = .shutdown vm :: rest) :
      MiniHell.Step handle s
        { s with phase := .preVanquish (some vm) false, instrBuf := rest,
                 ksExit := some false }
  /-- main select, instruction branch, `Message` (lines 107-114): re-inject into the
  internal mailbox, keeping arrival order -/
  | instrMessage (s : MiniState D I O) (tx : Nat) (b : AnyBox I O)
      (rest : List (MiniHellInstruction I O)) (hp : s.phase = .main)
      (hi : s.instrBuf = .message tx b :: rest) :
      MiniHell.Step handle s
        { s with instrBuf := rest, mailbox := s.mailbox ++ [(tx, b)] }
  /-- main select, instruction branch, channel closed (lines 116-120):
  `break (None, false)` -/
  | instrClosed (s : MiniState D I O) (hp : s.phase = .main)
      (hi : s.instrBuf = []) (ho : s.instrOpen = false) :
      MiniHell.Step handle s
        { s with phase := .preVanquish none false, ksExit := some false }
  /-- inner race, `handle` future completes first (lines 68-72, 85-88): the output is
  boxed and sent on the reply channel, the loop continues -/
  | handleDone (s : MiniState D I O) (tx : Nat) (i : I)
      (hp : s.phase = .handling tx i) :
      MiniHell.Step handle s
        { s with phase := .main, demon := (handle s.demon i).2,
                 replies := s.replies ++ [(tx, .ok (.out (handle s.demon i).1))] }
  /-- inner race, killswitch message wins (lines 73-76): the `handle` future is
  dropped, its reply sender with it; `break (Some vanquish_mailbox, true)` -/
  | handleAbort (s : MiniState D I O) (tx : Nat) (i : I) (vm : Nat)
      (rest : List Nat) (hp : s.phase = .handling tx i)
      (hb : s.killsBuf = vm :: rest) :
      MiniHell.Step handle s
        { s with phase := .preVanquish (some vm) true, killsBuf := rest,
                 aborted := s.aborted ++ [tx], ksExit := some true }
  /-- inner race, killswitch channel closed (lines 77-81): `break (None, true)` -/
  | handleAbortClosed (s : MiniState D I O) (tx : Nat) (i : I)
      (hp : s.phase = .handling tx i) (hb : s.killsBuf = [])
      (ho : s.killsOpen = false) :
      MiniHell.Step handle s
        { s with phase := .preVanquish none true,
                 aborted := s.aborted ++ [tx], ksExit := some true }
  /-- killswitched exit skips the vanquish block entirely (lines 146-149) -/
  | skipHook (s : MiniState D I O) (vm : Option Nat)
      (hp : s.phase = .preVanquish vm true) :
      MiniHell.Step handle s { s with phase := .preConfirm vm }
  /-- vanquish select, `Demon::vanquished` completes (lines 141-144) -/
  | runHook (s : MiniState D I O) (vm : Option Nat)
      (hp : s.phase = .preVanquish vm false) :
      MiniHell.Step handle s
        { s with phase := .preConfirm vm, hookRan := true }
  /-- vanquish select, a late killswitch message wins (lines 133-136): the hook
  future is dropped and the killswitch confirmation sender replaces `vm` -/
  | vanqKill (s : MiniState D I O) (vm : Option Nat) (vm' : Nat)
      (rest : List Nat) (hp : s.phase = .preVanquish vm false)
      (hb : s.killsBuf = vm' :: rest) :
      MiniHell.Step handle s
        { s with phase := .preConfirm (some vm'), killsBuf := rest }
  /-- vanquish select, killswitch channel closed wins the race (lines 137-140): the
  hook future is dropped, nothing else happens -/
  | vanqKillClosed (s : MiniState D I O) (vm : Option Nat)
      (hp : s.phase = .preVanquish vm false) (hb : s.killsBuf = [])
      (ho : s.killsOpen = false) :
      MiniHell.Step handle s { s with phase := .preConfirm vm }
  /-- signal the confirmation channel if one is present (lines 151-155) -/
  | confirmSend (s : MiniState D I O) (vm : Nat)
      (hp : s.phase = .preConfirm (some vm)) :
      MiniHell.Step handle s
        { s with phase := .finished, confirms := s.confirms ++ [vm] }
  /-- no confirmation channel: the task just returns (lines 156-159) -/
  | exitQuiet (s : MiniState D I O) (hp : s.phase = .preConfirm none) :
      MiniHell.Step handle s { s with phase := .finished }

/-- Reachability through `MiniHell.Step`: finitely many task and environment steps. -/
def MiniHell.Reach {D I O : Type} (handle : D → I → O × D) :
    MiniState D I O → MiniState D I O → Prop :=
  Relation.ReflTransGen (MiniHell.Step handle)

/-! ## The extinguish cleanup phase (src/hell.rs lines 445-531)

After `Extinguish` breaks the broker loop, for each still-registered demon the broker
creates a `(demon_tx, demon_rx)` confirmation oneshot and a `(killswitch_tx,
killswitch)` oneshot, sends `Shutdown(demon_tx)`, and spawns a waiter task that
`select!`s `demon_rx` against `killswitch`.  When no timeout is configured the
`killswitch_tx` sender is never moved into a timer task, so it is dropped when the
`for` iteration ends, which makes the waiter's `killswitch` future resolve with a
`RecvError`.  The broker `join_all`s the waiters and only then sends the extinguish
reply.  The model below follows one demon through this phase, starting right after
its `Shutdown` was delivered and its waiter spawned. -/

/-- State of the no-timeout extinguish cleanup for one registered demon. -/
structure ExtinguishState where
  /-- the `killswitch_tx` oneshot sender was dropped (end of the `for` iteration) -/
  ksTxDropped : Bool
  /-- the demon task dequeued the `Shutdown` instruction and broke its loop -/
  shutdownSeen : Bool
  /-- the demon's `vanquished` hook ran to completion -/
  hookRan : Bool
  /-- the demon signalled `demon_tx` -/
  confirmSent : Bool
  /-- the waiter task's `select!` completed -/
  waiterDone : Bool
  /-- `join_all` returned and the broker sent the extinguish reply `Ok(())` -/
  replySent : Bool
deriving DecidableEq, Repr

/-- Cleanup start: `Shutdown(demon_tx)` delivered, waiter spawned, nothing else yet. -/
def ExtinguishState.start : ExtinguishState :=
  { ksTxDropped := false, shutdownSeen := false, hookRan := false,
    confirmSent := false, waiterDone := false, replySent := false }

/-- Interleavings of the broker's cleanup iteration, the demon task, and the waiter
task in the no-timeout extinguish path of `Hell::ignite`. -/
inductive Extinguish.Step : ExtinguishState → ExtinguishState → Prop where
  /-- the `for` iteration ends; with no timeout configured `killswitch_tx` was never
  moved into a timer task, so it is dropped here (hell.rs lines 454, 462-487) -/
  | dropKsTx (s : ExtinguishState) (h : s.ksTxDropped = false) :
      Extinguish.Step s { s with ksTxDropped := true }
  /-- the demon task dequeues `Shutdown` and breaks its loop gracefully -/
  | demonShutdown (s : ExtinguishState) (h : s.shutdownSeen = false) :
      Extinguish.Step s { s with shutdownSeen := true }
  /-- the demon's `vanquished` hook completes (mini_hell.rs lines 131-145) -/
  | demonHook (s : ExtinguishState) (h1 : s.shutdownSeen = true)
      (h2 : s.hookRan = false) :
      Extinguish.Step s { s with hookRan := true }
  /-- the demon signals `demon_tx` (mini_hell.rs lines 151-155) -/
  | demonConfirm (s : ExtinguishState) (h1 : s.hookRan = true)
      (h2 : s.confirmSent = false) :
      Extinguish.Step s { s with confirmSent := true }
  /-- the waiter's `select!` completes through the `killswitch` branch: its sender
  was dropped, so `killswitch` resolves with a `RecvError` immediately
  (hell.rs lines 499-512, the `res.is_ok()` check only skips a log line) -/
  | waiterKillErr (s : ExtinguishState) (h1 : s.ksTxDropped = true)
      (h2 : s.waiterDone = false) :
      Extinguish.Step s { s with waiterDone := true }
  /-- the waiter's `select!` completes through the `demon_rx` branch -/
  | waiterConfirm (s : ExtinguishState) (h1 : s.confirmSent = true)
      (h2 : s.waiterDone = false) :
      Extinguish.Step s { s with waiterDone := true }
  /-- `join_all(handles)` returns and the broker sends the extinguish reply
  (hell.rs lines 521-530) -/
  | extinguishReply (s : ExtinguishState) (h1 : s.waiterDone = true)
      (h2 : s.replySent = false) :
      Extinguish.Step s { s with replySent := true }

/-- Reachability through the extinguish cleanup interleavings. -/
def Extinguish.Reach : ExtinguishState → ExtinguishState → Prop :=
  Relation.ReflTransGen Extinguish.Step

/-! ## Derived notions over the `MiniHell` transition system -/

/-- Input payloads buffered in the internal mailbox (the well-typed ones), in order. -/
def mailPayloads {I O : Type} (l : List (Nat × AnyBox I O)) : List I :=
  l.filterMap (fun p => p.2.downcastInput)

/-- Input payloads of the `Message` values buffered in the instruction channel. -/
def instrPayloads {I O : Type} (l : List (MiniHellInstruction I O)) : List I :=
  l.filterMap (fun m => match m with
    | .message _ b => b.downcastInput
    | .shutdown _ => none)

/-- Coupling invariant behind FIFO delivery: the accepted payloads are exactly the
handled ones followed by the mailbox backlog followed by the instruction-channel
backlog, each in order. -/
def MiniHell.Queued {D I O : Type} (s : MiniState D I O) : Prop :=
  s.accepted = s.handled ++ mailPayloads s.mailbox ++ instrPayloads s.instrBuf

/-- Reply token of an in-flight `handle` call, if any. -/
def phaseTx {I : Type} : MiniPhase I → List Nat
  | .handling tx _ => [tx]
  | _ => []

/-- Reply tokens of `Message` values buffered in the instruction channel. -/
def instrTxs {I O : Type} (l : List (MiniHellInstruction I O)) : List Nat :=
  l.filterMap (fun m => match m with
    | .message tx _ => some tx
    | .shutdown _ => none)

/-- Reply tokens whose oneshot sender is still held somewhere in the task: buffered
in the mailbox, buffered in the instruction channel, or tied to the in-flight call. -/
def pendingTxs {D I O : Type} (s : MiniState D I O) : List Nat :=
  s.mailbox.map Prod.fst ++ instrTxs s.instrBuf ++ phaseTx s.phase

/-- Reply tokens on which a value was actually sent. -/
def repliedTxs {D I O : Type} (s : MiniState D I O) : List Nat :=
  s.replies.map Prod.fst

/-- Token-freshness invariant: every live token is below the fresh counter, pending
tokens are pairwise distinct, and the aborted / replied / pending token sets are
mutually disjoint (each reply oneshot is single-use). -/
def MiniHell.TxInv {D I O : Type} (s : MiniState D I O) : Prop :=
  (∀ tx ∈ pendingTxs s, tx < s.nextTx) ∧
  (∀ tx ∈ s.aborted, tx < s.nextTx) ∧
  (∀ tx ∈ repliedTxs s, tx < s.nextTx) ∧
  (pendingTxs s).Nodup ∧
  (∀ tx ∈ s.aborted, tx ∉ pendingTxs s) ∧
  (∀ tx ∈ s.aborted, tx ∉ repliedTxs s) ∧
  (∀ tx ∈ repliedTxs s, tx ∉ pendingTxs s)

/-- Exit-flag invariant: the `killswitched` flag recorded at loop exit matches the
phase, and the vanquish hook can only have run after a non-killswitched exit. -/
def MiniHell.ExitInv {D I O : Type} (s : MiniState D I O) : Prop :=
  (∀ vm b, s.phase = .preVanquish vm b → s.ksExit = some b) ∧
  (s.phase = .main → s.ksExit = none) ∧
  (∀ tx i, s.phase = .handling tx i → s.ksExit = none) ∧
  (s.hookRan = true → s.ksExit = some false)

/-- While no killswitch message was ever delivered and the killswitch channel is
still open: the killswitch buffer is empty, the task never reached a killswitched
exit, and a confirmation can only have been sent after the vanquish hook ran. -/
def MiniHell.NoKillInv {D I O : Type} (s : MiniState D I O) : Prop :=
  s.killArrived = false → s.killsOpen = true →
    (s.killsBuf = [] ∧ (∀ vm, s.phase ≠ .preVanquish vm true) ∧
     (∀ vm, s.phase = .preConfirm vm → s.hookRan = true) ∧
     (s.confirms ≠ [] → s.hookRan = true))

/-- While neither a killswitch message nor a `Shutdown` was ever delivered, the task
holds no confirmation sender, so no confirmation is ever sent. -/
def MiniHell.QuietInv {D I O : Type} (s : MiniState D I O) : Prop :=
  s.killArrived = false → s.shutdownArrived = false →
    (s.killsBuf = [] ∧ (∀ vm, MiniHellInstruction.shutdown vm ∉ s.instrBuf) ∧
     (∀ vm b, s.phase ≠ .preVanquish (some vm) b) ∧
     (∀ vm, s.phase ≠ .preConfirm (some vm)) ∧
     s.confirms = [])

/-- The echo actor used in concrete runs: `handle` returns its input unchanged. -/
def natEchoHandle : Unit → Nat → Nat × Unit := fun d i => (i, d)

/-- End state of the concrete FIFO run: one message accepted, re-injected, handled
and replied. -/
def c1WitnessState : MiniState Unit Nat Nat :=
  { demon := (), phase := .main, mailbox := [], instrBuf := [], instrOpen := true,
    killsBuf := [], killsOpen := true, nextTx := 1, accepted := [5], handled := [5],
    replies := [(0, .ok (.out 5))], confirms := [], aborted := [], hookRan := false,
    killArrived := false, shutdownArrived := false, ksExit := none }

/-- End state of the concrete graceful-vanquish run: `Shutdown` delivered and
dequeued, hook run, confirmation sent; no killswitch ever involved. -/
def c4WitnessState : MiniState Unit Nat Nat :=
  { demon := (), phase := .finished, mailbox := [], instrBuf := [],
    instrOpen := true, killsBuf := [], killsOpen := true, nextTx := 0,
    accepted := [], handled := [], replies := [], confirms := [7], aborted := [],
    hookRan := true, killArrived := false, shutdownArrived := true,
    ksExit := some false }

/-- End state of the concrete race run refuting fixed select priority: a killswitch
message sits in the killswitch channel the whole time, yet an instruction-channel
message is dequeued, re-injected, handled and replied. -/
def c5RaceState : MiniState Unit Nat Nat :=
  { demon := (), phase := .main, mailbox := [], instrBuf := [], instrOpen := true,
    killsBuf := [9], killsOpen := true, nextTx := 1, accepted := [5],
    handled := [5], replies := [(0, .ok (.out 5))], confirms := [], aborted := [],
    hookRan := false, killArrived := true, shutdownArrived := false,
    ksExit := none }

/-- End state of the concrete abort run: the in-flight `handle` call for token 0 is
aborted by a killswitch message and its reply channel never receives a value. -/
def c5AbortState : MiniState Unit Nat Nat :=
  { demon := (), phase := .preVanquish (some 9) true, mailbox := [],
    instrBuf := [], instrOpen := true, killsBuf := [], killsOpen := true,
    nextTx := 1, accepted := [5], handled := [5], replies := [], confirms := [],
    aborted := [0], hookRan := false, killArrived := true,
    shutdownArrived := false, ksExit := some true }

/-- End state of the concrete orphaned-task run in which the closed killswitch
channel is observed first: the task terminates with the vanquish hook skipped and no
confirmation sent. -/
def c10KillState : MiniState Unit Nat Nat :=
  { demon := (), phase := .finished, mailbox := [], instrBuf := [],
    instrOpen := false, killsBuf := [], killsOpen := false, nextTx := 0,
    accepted := [], handled := [], replies := [], confirms := [], aborted := [],
    hookRan := false, killArrived := false, shutdownArrived := false,
    ksExit := some true }

/-- End state of the concrete orphaned-task run in which the instruction channel is
observed first and the hook wins the final race: the task terminates with the hook
run and no confirmation sent. -/
def c10HookState : MiniState Unit Nat Nat :=
  { demon := (), phase := .finished, mailbox := [], instrBuf := [],
    instrOpen := false, killsBuf := [], killsOpen := false, nextTx := 0,
    accepted := [], handled := [], replies := [], confirms := [], aborted := [],
    hookRan := true, killArrived := false, shutdownArrived := false,
    ksExit := some false }

/-- End state of the extinguish interleaving in which the broker's reply overtakes
the demon's vanquish hook: the killswitch oneshot sender was dropped, the waiter
returned through the resulting `RecvError` and the reply went out while the demon,
which had already dequeued `Shutdown`, had not yet run `vanquished`. -/
def extReplyNoHookState : ExtinguishState :=
  { ksTxDropped := true, shutdownSeen := true, hookRan := false,
    confirmSent := false, waiterDone := true, replySent := true }

/-- A broker state holding one registered demon whose actor task's instruction
channel is already closed. -/
def c7ClosedState : HellState :=
  { counter := 1, demons := [(0, ⟨false, true⟩)], successfulMessages := 0,
    failedMessages := 0, zombieCounter := 0 }

/-- A broker state holding one registered demon whose actor task is alive. -/
def c9LiveState : HellState :=
  { counter := 1, demons := [(0, ⟨true, true⟩)], successfulMessages := 0,
    failedMessages := 0, zombieCounter := 0 }

/-- Whether an instruction is a `RegisterDemon` targeting address `a` (the only kind
of instruction that can add a key to the registry). -/
def registersTo (a : Nat) : HellInstruction → Bool
  | .registerDemon b _ _ => decide (b = a)
  | _ => false

/-- Counter values that were actually delivered to a `CreateAddress` caller, in
processing order. -/
def createdAddresses (es : List HellEvent) : List Nat :=
  es.filterMap (fun e => match e with | .created a => some a | _ => none)

/-! ## Basic lemmas about the broker model -/

example :
    (Hell.run HellState.initial
      [.createAddress true,
       .registerDemon 0 ⟨true, true⟩ true,
       .message 0 false,
       .removeDemon 0 false none,
       .message 0 false]).2 =
    [.created 0, .registered 0, .msgForwarded 0, .removed 0, .msgInvalid 0] := by
  decide

theorem regLookup_regErase_self (l : List (Nat × DemonChannels)) (a : Nat) :
    regLookup (regErase l a) a = none := by
  induction l with
  | nil => rfl
  | cons p rest ih =>
      by_cases h : p.1 = a
      · simpa [regErase, List.filter_cons, h] using ih
      · simp [regErase, List.filter_cons, h, regLookup] at ih ⊢
        simpa [Ne.symm h] using ih

theorem regLookup_regErase_ne (l : List (Nat × DemonChannels)) (a b : Nat)
    (h : a ≠ b) : regLookup (regErase l b) a = regLookup l a := by
  induction l with
  | nil => rfl
  | cons p rest ih =>
      by_cases hp : p.1 = b
      · have ha : a ≠ p.1 := by rw [hp]; exact h
        simp [regErase, List.filter_cons, hp, regLookup, ha, h] at ih ⊢
        exact ih
      · by_cases ha : a = p.1
        · simp [regErase, List.filter_cons, hp, regLookup, ha]
        · simp [regErase, List.filter_cons, hp, regLookup, ha] at ih ⊢
          exact ih

theorem regLookup_eq_none_iff (l : List (Nat × DemonChannels)) (a : Nat) :
    regLookup l a = none ↔ a ∉ l.map Prod.fst := by
  induction l with
  | nil => simp [regLookup]
  | cons p rest ih =>
      by_cases h : a = p.1
      · simp [regLookup, h]
      · simp [regLookup, h, ih]

theorem Hell.run_append (s : HellState) (l₁ l₂ : List HellInstruction) :
    (Hell.run s (l₁ ++ l₂)).1 = (Hell.run (Hell.run s l₁).1 l₂).1 := by
  induction l₁ generalizing s with
  | nil => simp [Hell.run]
  | cons i rest ih => simp [Hell.run, ih]

theorem lookup_none_processInstruction (s : HellState) (i : HellInstruction)
    (a : Nat) (hreg : registersTo a i = false)
    (h : regLookup s.demons a = none) :
    regLookup (Hell.processInstruction s i).1.demons a = none := by
  cases i with
  | createAddress txo => cases txo <;> simpa [Hell.processInstruction] using h
  | registerDemon b dc txo =>
      have hba : b ≠ a := by simpa [registersTo] using hreg
      have hab : a ≠ b := fun hc => hba hc.symm
      rcases hl : regLookup s.demons b with _ | dc' <;> cases txo <;>
        simp [Hell.processInstruction, hl, regLookup_regErase_ne _ _ _ hab,
          regLookup, hab, h]
  | message b ig =>
      rcases hl : regLookup s.demons b with _ | dc'
      · simpa [Hell.processInstruction, hl] using h
      · cases hdc : dc'.instrOpen <;>
          simp [Hell.processInstruction, hl, hdc, h]
  | removeDemon b ig force =>
      by_cases hab : a = b
      · subst hab
        rcases hl : regLookup s.demons a with _ | dc'
        · simp [Hell.processInstruction, hl, h]
        · cases hdc : dc'.instrOpen <;> cases ig <;>
            simp [Hell.processInstruction, hl, hdc, regLookup_regErase_self]
      · rcases hl : regLookup s.demons b with _ | dc'
        · simpa [Hell.processInstruction, hl] using h
        · cases hdc : dc'.instrOpen <;> cases ig <;>
            simp [Hell.processInstruction, hl, hdc, h,
              regLookup_regErase_ne _ _ _ hab]
  | stats => simpa [Hell.processInstruction] using h

theorem lookup_none_run (s : HellState) (l : List HellInstruction) (a : Nat)
    (hreg : ∀ i ∈ l, registersTo a i = false)
    (h : regLookup s.demons a = none) :
    regLookup (Hell.run s l).1.demons a = none := by
  induction l generalizing s with
  | nil => simpa [Hell.run] using h
  | cons i rest ih =>
      simp only [Hell.run]
      exact ih _ (fun j hj => hreg j (List.mem_cons_of_mem _ hj))
        (lookup_none_processInstruction s i a (hreg i (List.mem_cons_self i rest)) h)

theorem exists_register_of_run_lookup (s : HellState) (l : List HellInstruction)
    (a : Nat) (hs : regLookup s.demons a = none)
    (h : regLookup (Hell.run s l).1.demons a ≠ none) :
    ∃ i ∈ l, registersTo a i = true := by
  by_contra hc
  push_neg at hc
  exact h (lookup_none_run s l a
    (fun i hi => by simpa using hc i hi) hs)

theorem counter_eq_of_not_create (s : HellState) (i : HellInstruction)
    (h : ∀ txo, i ≠ .createAddress txo) :
    (Hell.processInstruction s i).1.counter = s.counter := by
  cases i with
  | createAddress txo => exact absurd rfl (h txo)
  | registerDemon b dc txo =>
      rcases hl : regLookup s.demons b with _ | dc' <;> cases txo <;>
        simp [Hell.processInstruction, hl]
  | message b ig =>
      rcases hl : regLookup s.demons b with _ | dc'
      · simp [Hell.processInstruction, hl]
      · cases hdc : dc'.instrOpen <;> simp [Hell.processInstruction, hl, hdc]
  | removeDemon b ig force =>
      rcases hl : regLookup s.demons b with _ | dc'
      · simp [Hell.processInstruction, hl]
      · cases hdc : dc'.instrOpen <;> cases ig <;>
          simp [Hell.processInstruction, hl, hdc]
  | stats => simp [Hell.processInstruction]

theorem event_not_created_of_not_create (s : HellState) (i : HellInstruction)
    (h : ∀ txo, i ≠ .createAddress txo) (x : Nat) :
    (Hell.processInstruction s i).2 ≠ .created x := by
  cases i with
  | createAddress txo => exact absurd rfl (h txo)
  | registerDemon b dc txo =>
      rcases hl : regLookup s.demons b with _ | dc' <;> cases txo <;>
        simp [Hell.processInstruction, hl]
  | message b ig =>
      rcases hl : regLookup s.demons b with _ | dc'
      · simp [Hell.processInstruction, hl]
      · cases hdc : dc'.instrOpen <;> simp [Hell.processInstruction, hl, hdc]
  | removeDemon b ig force =>
      rcases hl : regLookup s.demons b with _ | dc'
      · simp [Hell.processInstruction, hl]
      · cases hdc : dc'.instrOpen <;> cases ig <;>
          simp [Hell.processInstruction, hl, hdc]
  | stats => simp [Hell.processInstruction]

theorem created_bounded_sorted (l : List HellInstruction) (s : HellState) :
    (∀ x ∈ createdAddresses (Hell.run s l).2, s.counter ≤ x) ∧
    (createdAddresses (Hell.run s l).2).Pairwise (· < ·) := by
  induction l generalizing s with
  | nil => simp [Hell.run, createdAddresses]
  | cons i rest ih =>
      by_cases hcr : ∃ txo, i = HellInstruction.createAddress txo
      · obtain ⟨txo, rfl⟩ := hcr
        cases txo with
        | true =>
            have hrun : Hell.run s (HellInstruction.createAddress true :: rest) =
                ((Hell.run { s with counter := s.counter + 1 } rest).1,
                 .created s.counter ::
                   (Hell.run { s with counter := s.counter + 1 } rest).2) := by
              simp [Hell.run, Hell.processInstruction]
            obtain ⟨ihb, ihp⟩ := ih { s with counter := s.counter + 1 }
            have ihb' : ∀ x ∈ createdAddresses
                (Hell.run { s with counter := s.counter + 1 } rest).2,
                s.counter + 1 ≤ x := by
              simpa using ihb
            rw [hrun]
            constructor
            · intro x hx
              simp only [createdAddresses, List.filterMap_cons] at hx
              rcases List.mem_cons.mp hx with hx | hx
              · omega
              · have := ihb' x hx
                omega
            · simp only [createdAddresses, List.filterMap_cons]
              refine List.Pairwise.cons (fun x hx => ?_) ihp
              have := ihb' x hx
              omega
        | false =>
            have hrun : Hell.run s (HellInstruction.createAddress false :: rest) =
                ((Hell.run s rest).1,
                 .createDropped s.counter :: (Hell.run s rest).2) := by
              simp [Hell.run, Hell.processInstruction]
            rw [hrun]
            simpa [createdAddresses, List.filterMap_cons] using ih s
      · push_neg at hcr
        have hnc : ∀ txo, i ≠ HellInstruction.createAddress txo := hcr
        have hcounter := counter_eq_of_not_create s i hnc
        have hevent := event_not_created_of_not_create s i hnc
        have hrun : Hell.run s (i :: rest) =
            ((Hell.run (Hell.processInstruction s i).1 rest).1,
              (Hell.processInstruction s i).2 ::
                (Hell.run (Hell.processInstruction s i).1 rest).2) := by
          simp [Hell.run]
        obtain ⟨ihb, ihp⟩ := ih (Hell.processInstruction s i).1
        rw [hrun]
        have hskip : createdAddresses ((Hell.processInstruction s i).2 ::
            (Hell.run (Hell.processInstruction s i).1 rest).2) =
            createdAddresses (Hell.run (Hell.processInstruction s i).1 rest).2 := by
          cases he : (Hell.processInstruction s i).2
          case created x => exact absurd he (hevent x)
          all_goals simp [createdAddresses]
        rw [hskip]
        exact ⟨fun x hx => hcounter ▸ ihb x hx, ihp⟩

theorem regErase_keys_nodup (l : List (Nat × DemonChannels)) (a : Nat)
    (h : (l.map Prod.fst).Nodup) : ((regErase l a).map Prod.fst).Nodup :=
  List.Sublist.nodup (List.Sublist.map Prod.fst (List.filter_sublist l)) h

theorem keys_nodup_processInstruction (s : HellState) (i : HellInstruction)
    (h : (s.demons.map Prod.fst).Nodup) :
    ((Hell.processInstruction s i).1.demons.map Prod.fst).Nodup := by
  cases i with
  | createAddress txo => cases txo <;> simpa [Hell.processInstruction] using h
  | registerDemon b dc txo =>
      rcases hl : regLookup s.demons b with _ | dc'
      · have hb : b ∉ s.demons.map Prod.fst := (regLookup_eq_none_iff _ _).mp hl
        cases txo
        · simp only [Hell.processInstruction, hl]
          exact regErase_keys_nodup _ _ (by simpa using List.Nodup.cons hb h)
        · simp only [Hell.processInstruction, hl]
          simpa using List.Nodup.cons hb h
      · cases txo <;> simp only [Hell.processInstruction, hl]
        · exact regErase_keys_nodup _ _ h
        · exact h
  | message b ig =>
      rcases hl : regLookup s.demons b with _ | dc'
      · simpa [Hell.processInstruction, hl] using h
      · cases hdc : dc'.instrOpen <;>
          simpa [Hell.processInstruction, hl, hdc] using h
  | removeDemon b ig force =>
      rcases hl : regLookup s.demons b with _ | dc'
      · simpa [Hell.processInstruction, hl] using h
      · cases hdc : dc'.instrOpen <;> cases ig <;>
          · simp only [Hell.processInstruction, hl, hdc]
            exact regErase_keys_nodup _ _ h
  | stats => simpa [Hell.processInstruction] using h

theorem keys_nodup_run (s : HellState) (l : List HellInstruction)
    (h : (s.demons.map Prod.fst).Nodup) :
    (((Hell.run s l).1.demons.map Prod.fst)).Nodup := by
  induction l generalizing s with
  | nil => simpa [Hell.run] using h
  | cons i rest ih =>
      simp only [Hell.run]
      exact ih _ (keys_nodup_processInstruction s i h)

theorem message_invalid_iff (s : HellState) (a : Nat) (ig : Bool) :
    (Hell.processInstruction s (.message a ig)).2 = .msgInvalid a ↔
      regLookup s.demons a = none := by
  rcases hl : regLookup s.demons a with _ | dc'
  · simp [Hell.processInstruction, hl]
  · cases hdc : dc'.instrOpen <;> simp [Hell.processInstruction, hl, hdc]

theorem lookup_none_after_remove (s : HellState) (a : Nat) (ig : Bool)
    (f : Option (Option Nat)) :
    regLookup (Hell.processInstruction s (.removeDemon a ig f)).1.demons a =
      none := by
  rcases hl : regLookup s.demons a with _ | dc'
  · simp [Hell.processInstruction, hl]
  · cases hdc : dc'.instrOpen <;> cases ig <;>
      simp [Hell.processInstruction, hl, hdc, regLookup_regErase_self]

/-! ## Claim theorems -/

/-- C2: the broker processes instructions in a single total order (`Hell.run` folds
them in dequeue order), a `Message` is answered `Err(InvalidLocation)` exactly when
the target address is absent from the registry at the moment it is processed, a
`RemoveDemon` removes the registry entry immediately, and consequently a
`RemoveDemon` that found its demon and is processed before a `Message` to the same
address forces that `Message` to see `InvalidLocation` (the discipline hypothesis
`countP ≤ 1` states that the address is registered at most once in the stream, which
`Gate::spawn` guarantees by registering only fresh `CreateAddress` counters). -/
theorem hell_total_order_invalid_location_c2 :
    (∀ (s : HellState) (a : Nat) (ig : Bool),
        (Hell.processInstruction s (.message a ig)).2 = .msgInvalid a ↔
          regLookup s.demons a = none) ∧
    (∀ (s : HellState) (a : Nat) (ig : Bool) (f : Option (Option Nat)),
        regLookup (Hell.processInstruction s (.removeDemon a ig f)).1.demons a =
          none) ∧
    (∀ (pre mid : List HellInstruction) (a : Nat) (ig ig' : Bool)
        (f : Option (Option Nat)),
        regLookup (Hell.run HellState.initial pre).1.demons a ≠ none →
        (pre ++ mid).countP (fun i => registersTo a i) ≤ 1 →
        (Hell.processInstruction
            (Hell.run HellState.initial
              (pre ++ HellInstruction.removeDemon a ig f :: mid)).1
            (.message a ig')).2 = .msgInvalid a) := by
  refine ⟨message_invalid_iff, lookup_none_after_remove, ?_⟩
  intro pre mid a ig ig' f hrm hcount
  have hinit : regLookup HellState.initial.demons a = none := rfl
  have hreg : ∃ i ∈ pre, registersTo a i = true :=
    exists_register_of_run_lookup _ pre a hinit hrm
  have h1 : 0 < pre.countP (fun i => registersTo a i) := by
    rcases hreg with ⟨i, hi, hri⟩
    exact List.countP_pos_iff.mpr ⟨i, hi, hri⟩
  have hsplit : (pre ++ mid).countP (fun i => registersTo a i) =
      pre.countP (fun i => registersTo a i) +
        mid.countP (fun i => registersTo a i) := List.countP_append _ _ _
  have h2 : mid.countP (fun i => registersTo a i) = 0 := by omega
  have hmid : ∀ i ∈ mid, registersTo a i = false := by
    intro i hi
    have := List.countP_eq_zero.mp h2 i hi
    simpa using this
  have hafter : regLookup
      ((Hell.run HellState.initial
        (pre ++ [HellInstruction.removeDemon a ig f])).1).demons a = none := by
    rw [Hell.run_append]
    have hone : (Hell.run (Hell.run HellState.initial pre).1
        [HellInstruction.removeDemon a ig f]).1 =
        (Hell.processInstruction (Hell.run HellState.initial pre).1
          (.removeDemon a ig f)).1 := by
      simp [Hell.run]
    rw [hone]
    exact lookup_none_after_remove _ a ig f
  have hsplit2 : pre ++ HellInstruction.removeDemon a ig f :: mid =
      (pre ++ [HellInstruction.removeDemon a ig f]) ++ mid := by simp
  have hfinal : regLookup
      (Hell.run HellState.initial
        (pre ++ HellInstruction.removeDemon a ig f :: mid)).1.demons a = none := by
    rw [hsplit2, Hell.run_append]
    exact lookup_none_run _ mid a hmid hafter
  exact (message_invalid_iff _ a ig').mpr hfinal

/-- C2 witness: a concrete stream `create; register 0; remove 0; stats; message 0`
in which the final `Message` is answered `InvalidLocation`. -/
theorem hell_total_order_invalid_location_c2_witness :
    regLookup (Hell.run HellState.initial
        [.createAddress true, .registerDemon 0 ⟨true, true⟩ true]).1.demons 0 ≠
      none ∧
    ([HellInstruction.createAddress true,
      HellInstruction.registerDemon 0 ⟨true, true⟩ true] ++
        [HellInstruction.stats]).countP (fun i => registersTo 0 i) ≤ 1 ∧
    (Hell.processInstruction
        (Hell.run HellState.initial
          ([.createAddress true, .registerDemon 0 ⟨true, true⟩ true] ++
            HellInstruction.removeDemon 0 false none :: [HellInstruction.stats])).1
        (.message 0 false)).2 = .msgInvalid 0 :=
  ⟨by decide, by decide,
    hell_total_order_invalid_location_c2.2.2
      [.createAddress true, .registerDemon 0 ⟨true, true⟩ true]
      [HellInstruction.stats] 0 false false none (by decide) (by decide)⟩

/-- C3: simultaneously-registered actors never share an address (the registry's key
list stays duplicate-free) and addresses are never reused (the addresses actually
delivered by `CreateAddress` are strictly increasing, hence pairwise distinct);
`CreateAddress` hands out the current counter and increments it exactly when the
reply is delivered, no instruction ever decreases the counter, and `RegisterDemon`
on an occupied key replies `Err(OccupiedAddress)` leaving the state unchanged. -/
theorem hell_address_uniqueness_c3 :
    (∀ l : List HellInstruction,
        (createdAddresses (Hell.run HellState.initial l).2).Pairwise (· < ·)) ∧
    (∀ l : List HellInstruction,
        ((Hell.run HellState.initial l).1.demons.map Prod.fst).Nodup) ∧
    (∀ s : HellState, Hell.processInstruction s (.createAddress true) =
        ({ s with counter := s.counter + 1 }, .created s.counter)) ∧
    (∀ s : HellState, Hell.processInstruction s (.createAddress false) =
        (s, .createDropped s.counter)) ∧
    (∀ (s : HellState) (i : HellInstruction),
        s.counter ≤ (Hell.processInstruction s i).1.counter) ∧
    (∀ (s : HellState) (a : Nat) (dc : DemonChannels),
        regLookup s.demons a ≠ none →
        Hell.processInstruction s (.registerDemon a dc true) = (s, .occupied a)) := by
  refine ⟨fun l => (created_bounded_sorted l HellState.initial).2,
    fun l => keys_nodup_run HellState.initial l (by simp [HellState.initial]),
    fun s => by simp [Hell.processInstruction],
    fun s => by simp [Hell.processInstruction], ?_, ?_⟩
  · intro s i
    by_cases hcr : ∃ txo, i = HellInstruction.createAddress txo
    · obtain ⟨txo, rfl⟩ := hcr
      cases txo <;> simp [Hell.processInstruction]
    · push_neg at hcr
      rw [counter_eq_of_not_create s i hcr]
  · intro s a dc h
    rcases hl : regLookup s.demons a with _ | dc'
    · exact absurd hl h
    · simp [Hell.processInstruction, hl]

/-! ### FIFO processing in the actor task (C1) -/

theorem MiniHell.queued_step {D I O : Type} {handle : D → I → O × D}
    {s s' : MiniState D I O} (h : MiniHell.Step handle s s')
    (hq : MiniHell.Queued s) : MiniHell.Queued s' := by
  cases h
  case instrMessage tx b rest hp hi =>
    cases b <;>
      simp_all [MiniHell.Queued, mailPayloads, instrPayloads,
        AnyBox.downcastInput, List.filterMap_append]
  all_goals
    simp_all [MiniHell.Queued, mailPayloads, instrPayloads,
      AnyBox.downcastInput, List.filterMap_append]

theorem MiniHell.queued_reach {D I O : Type} {handle : D → I → O × D}
    {s₀ s : MiniState D I O} (h : MiniHell.Reach handle s₀ s)
    (h₀ : MiniHell.Queued s₀) : MiniHell.Queued s := by
  induction h with
  | refl => exact h₀
  | tail hab hbc ih => exact MiniHell.queued_step hbc ih

/-- C1: in every reachable state of an actor task, the payloads on which `handle`
was invoked form, in invocation order, a prefix of the payloads the broker accepted
for this actor, in acceptance order: the task transfers each `Message` from the
instruction channel into its internal mailbox in arrival order and invokes `handle`
sequentially on the internal mailbox front, so delivery is FIFO per address. -/
theorem minihell_fifo_order_c1 {D I O : Type} (handle : D → I → O × D) (d : D)
    (s : MiniState D I O) (h : MiniHell.Reach handle (MiniState.initial d) s) :
    s.handled <+: s.accepted := by
  have h₀ : MiniHell.Queued (MiniState.initial (I := I) (O := O) d) := by
    simp [MiniHell.Queued, MiniState.initial, mailPayloads, instrPayloads]
  have hq := MiniHell.queued_reach h h₀
  exact ⟨mailPayloads s.mailbox ++ instrPayloads s.instrBuf,
    by rw [hq, List.append_assoc]⟩

/-- C1 witness: a concrete run accepting payload 5, re-injecting it, handling it and
replying; the handled list is a prefix of the accepted list. -/
theorem minihell_fifo_order_c1_witness :
    MiniHell.Reach natEchoHandle (MiniState.initial ()) c1WitnessState ∧
    c1WitnessState.handled <+: c1WitnessState.accepted := by
  have hreach : MiniHell.Reach natEchoHandle (MiniState.initial ()) c1WitnessState := by
    refine Relation.ReflTransGen.head (MiniHell.Step.envAccept _ 5 rfl) ?_
    refine Relation.ReflTransGen.head
      (MiniHell.Step.instrMessage _ 0 (AnyBox.inp 5) [] rfl rfl) ?_
    refine Relation.ReflTransGen.head (MiniHell.Step.deqHandle _ 0 5 [] rfl rfl) ?_
    refine Relation.ReflTransGen.head (MiniHell.Step.handleDone _ 0 5 rfl) ?_
    exact Relation.ReflTransGen.refl
  exact ⟨hreach, minihell_fifo_order_c1 natEchoHandle () c1WitnessState hreach⟩

/-! ### Vanquish-hook ordering (C4) -/

theorem MiniHell.exitInv_step {D I O : Type} {handle : D → I → O × D}
    {s s' : MiniState D I O} (h : MiniHell.Step handle s s')
    (hv : MiniHell.ExitInv s) : MiniHell.ExitInv s' := by
  obtain ⟨pf, mn, hn, hf⟩ := hv
  cases h <;> refine ⟨?_, ?_, ?_, ?_⟩ <;>
    first
    | exact hn
    | simp_all [MiniHell.ExitInv]

theorem MiniHell.noKillInv_step {D I O : Type} {handle : D → I → O × D}
    {s s' : MiniState D I O} (h : MiniHell.Step handle s s')
    (hv : MiniHell.NoKillInv s) : MiniHell.NoKillInv s' := by
  cases h
  case envAccept i ho => exact hv
  case envShutdown vm ho => exact hv
  case envKill vm ho => intro hk ho'; simp at hk
  case envCloseInstr => exact hv
  case envCloseKills => intro hk ho'; simp at ho'
  case killRecv vm rest hp hb =>
      intro hk ho
      obtain ⟨hbuf, h2, h3, h4⟩ := hv hk ho
      exact absurd (hb.symm.trans hbuf) (by simp)
  case killRecvClosed hp hb ho =>
      intro hk hko
      exact absurd hko (by simp [ho])
  case deqHandle tx i rest hp hm =>
      intro hk ho
      obtain ⟨hbuf, h2, h3, h4⟩ := hv hk ho
      exact ⟨hbuf, by simp, by simp, h4⟩
  case deqWrongType tx o rest hp hm => exact hv
  case instrShutdown vm rest hp hi =>
      intro hk ho
      obtain ⟨hbuf, h2, h3, h4⟩ := hv hk ho
      exact ⟨hbuf, by simp, by simp, h4⟩
  case instrMessage tx b rest hp hi => exact hv
  case instrClosed hp hi ho =>
      intro hk hko
      obtain ⟨hbuf, h2, h3, h4⟩ := hv hk hko
      exact ⟨hbuf, by simp, by simp, h4⟩
  case handleDone tx i hp =>
      intro hk ho
      obtain ⟨hbuf, h2, h3, h4⟩ := hv hk ho
      exact ⟨hbuf, by simp, by simp, h4⟩
  case handleAbort tx i vm rest hp hb =>
      intro hk ho
      obtain ⟨hbuf, h2, h3, h4⟩ := hv hk ho
      exact absurd (hb.symm.trans hbuf) (by simp)
  case handleAbortClosed tx i hp hb ho =>
      intro hk hko
      exact absurd hko (by simp [ho])
  case skipHook vm hp =>
      intro hk ho
      obtain ⟨hbuf, h2, h3, h4⟩ := hv hk ho
      exact absurd hp (h2 vm)
  case runHook vm hp =>
      intro hk ho
      obtain ⟨hbuf, h2, h3, h4⟩ := hv hk ho
      exact ⟨hbuf, by simp, by simp, by simp⟩
  case vanqKill vm vm' rest hp hb =>
      intro hk ho
      obtain ⟨hbuf, h2, h3, h4⟩ := hv hk ho
      exact absurd (hb.symm.trans hbuf) (by simp)
  case vanqKillClosed vm hp hb ho =>
      intro hk hko
      exact absurd hko (by simp [ho])
  case confirmSend vm hp =>
      intro hk ho
      obtain ⟨hbuf, h2, h3, h4⟩ := hv hk ho
      have hr : s.hookRan = true := h3 (some vm) hp
      exact ⟨hbuf, by simp, by simp, fun _ => hr⟩
  case exitQuiet hp =>
      intro hk ho
      obtain ⟨hbuf, h2, h3, h4⟩ := hv hk ho
      exact ⟨hbuf, by simp, by simp, h4⟩

theorem MiniHell.exitInv_reach {D I O : Type} {handle : D → I → O × D}
    {s₀ s : MiniState D I O} (h : MiniHell.Reach handle s₀ s)
    (h₀ : MiniHell.ExitInv s₀) : MiniHell.ExitInv s := by
  induction h with
  | refl => exact h₀
  | tail hab hbc ih => exact MiniHell.exitInv_step hbc ih

theorem MiniHell.noKillInv_reach {D I O : Type} {handle : D → I → O × D}
    {s₀ s : MiniState D I O} (h : MiniHell.Reach handle s₀ s)
    (h₀ : MiniHell.NoKillInv s₀) : MiniHell.NoKillInv s := by
  induction h with
  | refl => exact h₀
  | tail hab hbc ih => exact MiniHell.noKillInv_step hbc ih

/-- C4: in every reachable state of an actor task in an environment that never
delivers a killswitch (no timeout configured) and keeps the killswitch sender open —
exactly the situation of a graceful `vanquish` with no timeout — a sent shutdown
confirmation implies the `vanquished` hook already ran; since `Gate::vanquish` only
returns after the broker's waiter received that confirmation and replied, the hook
runs before the call returns.  Conversely, whenever the main loop exited through the
killswitch (`killswitched = true`), the hook never runs. -/
theorem minihell_vanquish_hook_c4 {D I O : Type} (handle : D → I → O × D) (d : D)
    (s : MiniState D I O) (h : MiniHell.Reach handle (MiniState.initial d) s) :
    (s.killArrived = false → s.killsOpen = true →
      s.confirms ≠ [] → s.hookRan = true) ∧
    (s.ksExit = some true → s.hookRan = false) := by
  have h₀nk : MiniHell.NoKillInv (MiniState.initial (I := I) (O := O) d) := by
    intro _ _
    simp [MiniState.initial]
  have h₀ex : MiniHell.ExitInv (MiniState.initial (I := I) (O := O) d) := by
    refine ⟨?_, ?_, ?_, ?_⟩ <;> simp [MiniState.initial]
  have hnk := MiniHell.noKillInv_reach h h₀nk
  have hex := MiniHell.exitInv_reach h h₀ex
  constructor
  · intro hk ho hc
    exact (hnk hk ho).2.2.2 hc
  · intro hkt
    obtain ⟨-, -, -, hf⟩ := hex
    cases hr : s.hookRan with
    | false => rfl
    | true => exact absurd (hf hr) (by simp [hkt])

/-- C4 witness: graceful shutdown run of the echo actor; the confirmation is sent
and the hook has indeed run. -/
theorem minihell_vanquish_hook_c4_witness :
    MiniHell.Reach natEchoHandle (MiniState.initial ()) c4WitnessState ∧
    c4WitnessState.killArrived = false ∧ c4WitnessState.killsOpen = true ∧
    c4WitnessState.confirms ≠ [] ∧ c4WitnessState.hookRan = true := by
  have hreach : MiniHell.Reach natEchoHandle (MiniState.initial ()) c4WitnessState := by
    refine Relation.ReflTransGen.head (MiniHell.Step.envShutdown _ 7 rfl) ?_
    refine Relation.ReflTransGen.head
      (MiniHell.Step.instrShutdown _ 7 [] rfl rfl) ?_
    refine Relation.ReflTransGen.head (MiniHell.Step.runHook _ (some 7) rfl) ?_
    refine Relation.ReflTransGen.head (MiniHell.Step.confirmSend _ 7 rfl) ?_
    exact Relation.ReflTransGen.refl
  refine ⟨hreach, rfl, rfl, by simp [c4WitnessState], ?_⟩
  exact (minihell_vanquish_hook_c4 natEchoHandle () c4WitnessState hreach).1
    rfl rfl (by simp [c4WitnessState])

/-! ### Single-use reply tokens and the killswitch race (C5) -/

theorem perm_append_middle {α : Type} (a b c : List α) (x : α) :
    (a ++ (b ++ [x]) ++ c).Perm ((a ++ b ++ c) ++ [x]) := by
  have h1 : a ++ (b ++ [x]) ++ c = a ++ b ++ ([x] ++ c) := by
    simp [List.append_assoc]
  have h2 : (a ++ b ++ c) ++ [x] = a ++ b ++ (c ++ [x]) := by
    simp [List.append_assoc]
  rw [h1, h2]
  exact List.Perm.append_left _ List.perm_append_comm

theorem perm_snoc_cons {α : Type} (a b : List α) (x : α) :
    (a ++ (b ++ [x])).Perm (x :: (a ++ b)) := by
  rw [← List.append_assoc]
  exact List.perm_append_comm

theorem perm_of_eq_list {α : Type} {l₁ l₂ : List α} (h : l₁ = l₂) :
    l₁.Perm l₂ := h ▸ List.Perm.refl _

theorem MiniHell.txInv_congr {D I O : Type} (s s' : MiniState D I O)
    (hp : (pendingTxs s').Perm (pendingTxs s)) (ha : s'.aborted = s.aborted)
    (hr : s'.replies = s.replies) (hn : s'.nextTx = s.nextTx)
    (hv : MiniHell.TxInv s) : MiniHell.TxInv s' := by
  obtain ⟨p1, p2, p3, p4, p5, p6, p7⟩ := hv
  refine ⟨?_, ?_, ?_, ?_, ?_, ?_, ?_⟩
  · intro tx htx
    rw [hn]
    exact p1 tx (hp.mem_iff.mp htx)
  · intro tx htx
    rw [hn]
    exact p2 tx (ha ▸ htx)
  · intro tx htx
    rw [hn]
    exact p3 tx (by simpa [repliedTxs, hr] using htx)
  · exact (hp.nodup_iff).mpr p4
  · intro tx htx hmem
    exact p5 tx (ha ▸ htx) (hp.mem_iff.mp hmem)
  · intro tx htx hmem
    exact p6 tx (ha ▸ htx) (by simpa [repliedTxs, hr] using hmem)
  · intro tx htx hmem
    exact p7 tx (by simpa [repliedTxs, hr] using htx) (hp.mem_iff.mp hmem)

theorem MiniHell.txInv_fresh {D I O : Type} (s s' : MiniState D I O)
    (hp : (pendingTxs s').Perm (pendingTxs s ++ [s.nextTx]))
    (ha : s'.aborted = s.aborted) (hr : s'.replies = s.replies)
    (hn : s'.nextTx = s.nextTx + 1) (hv : MiniHell.TxInv s) :
    MiniHell.TxInv s' := by
  obtain ⟨p1, p2, p3, p4, p5, p6, p7⟩ := hv
  have hfp : s.nextTx ∉ pendingTxs s := fun hmem => lt_irrefl _ (p1 _ hmem)
  have hfa : s.nextTx ∉ s.aborted := fun hmem => lt_irrefl _ (p2 _ hmem)
  have hfr : s.nextTx ∉ repliedTxs s := fun hmem => lt_irrefl _ (p3 _ hmem)
  refine ⟨?_, ?_, ?_, ?_, ?_, ?_, ?_⟩
  · intro tx htx
    rw [hn]
    rcases List.mem_append.mp (hp.mem_iff.mp htx) with hx | hx
    · have := p1 tx hx
      omega
    · simp at hx
      omega
  · intro tx htx
    rw [hn]
    have := p2 tx (ha ▸ htx)
    omega
  · intro tx htx
    rw [hn]
    have := p3 tx (by simpa [repliedTxs, hr] using htx)
    omega
  · refine (hp.nodup_iff).mpr ?_
    rw [List.nodup_append]
    refine ⟨p4, List.nodup_singleton _, fun x hx hx' => ?_⟩
    simp at hx'
    subst hx'
    exact hfp hx
  · intro tx htx hmem
    rcases List.mem_append.mp (hp.mem_iff.mp hmem) with hx | hx
    · exact p5 tx (ha ▸ htx) hx
    · simp at hx
      subst hx
      exact hfa (ha ▸ htx)
  · intro tx htx hmem
    exact p6 tx (ha ▸ htx) (by simpa [repliedTxs, hr] using hmem)
  · intro tx htx hmem
    rcases List.mem_append.mp (hp.mem_iff.mp hmem) with hx | hx
    · exact p7 tx (by simpa [repliedTxs, hr] using htx) hx
    · simp at hx
      subst hx
      exact hfr (by simpa [repliedTxs, hr] using htx)

theorem MiniHell.txInv_reply {D I O : Type} (s s' : MiniState D I O) {tx₀ : Nat}
    {v : Except Error (AnyBox I O)}
    (hp : (pendingTxs s).Perm (tx₀ :: pendingTxs s'))
    (ha : s'.aborted = s.aborted)
    (hr : s'.replies = s.replies ++ [(tx₀, v)])
    (hn : s'.nextTx = s.nextTx) (hv : MiniHell.TxInv s) : MiniHell.TxInv s' := by
  obtain ⟨p1, p2, p3, p4, p5, p6, p7⟩ := hv
  have hmem₀ : tx₀ ∈ pendingTxs s := hp.mem_iff.mpr (List.mem_cons_self _ _)
  have hsub : ∀ x ∈ pendingTxs s', x ∈ pendingTxs s :=
    fun x hx => hp.mem_iff.mpr (List.mem_cons_of_mem _ hx)
  have hnd' : (tx₀ :: pendingTxs s').Nodup := (hp.nodup_iff).mp p4
  have h₀notin : tx₀ ∉ pendingTxs s' := (List.nodup_cons.mp hnd').1
  have hrep' : repliedTxs s' = repliedTxs s ++ [tx₀] := by
    simp [repliedTxs, hr]
  refine ⟨?_, ?_, ?_, (List.nodup_cons.mp hnd').2, ?_, ?_, ?_⟩
  · intro tx htx
    rw [hn]
    exact p1 tx (hsub _ htx)
  · intro tx htx
    rw [hn]
    exact p2 tx (ha ▸ htx)
  · intro tx htx
    rw [hn]
    rw [hrep'] at htx
    rcases List.mem_append.mp htx with hx | hx
    · exact p3 tx hx
    · simp at hx
      subst hx
      exact p1 _ hmem₀
  · intro tx htx hmem
    exact p5 tx (ha ▸ htx) (hsub _ hmem)
  · intro tx htx hmem
    rw [hrep'] at hmem
    rcases List.mem_append.mp hmem with hx | hx
    · exact p6 tx (ha ▸ htx) hx
    · simp at hx
      subst hx
      exact p5 _ (ha ▸ htx) hmem₀
  · intro tx htx hmem
    rw [hrep'] at htx
    rcases List.mem_append.mp htx with hx | hx
    · exact p7 tx hx (hsub _ hmem)
    · simp at hx
      subst hx
      exact h₀notin hmem

theorem MiniHell.txInv_abort {D I O : Type} (s s' : MiniState D I O) {tx₀ : Nat}
    (hp : (pendingTxs s).Perm (tx₀ :: pendingTxs s'))
    (ha : s'.aborted = s.aborted ++ [tx₀])
    (hr : s'.replies = s.replies)
    (hn : s'.nextTx = s.nextTx) (hv : MiniHell.TxInv s) : MiniHell.TxInv s' := by
  obtain ⟨p1, p2, p3, p4, p5, p6, p7⟩ := hv
  have hmem₀ : tx₀ ∈ pendingTxs s := hp.mem_iff.mpr (List.mem_cons_self _ _)
  have hsub : ∀ x ∈ pendingTxs s', x ∈ pendingTxs s :=
    fun x hx => hp.mem_iff.mpr (List.mem_cons_of_mem _ hx)
  have hnd' : (tx₀ :: pendingTxs s').Nodup := (hp.nodup_iff).mp p4
  have h₀notin : tx₀ ∉ pendingTxs s' := (List.nodup_cons.mp hnd').1
  have h₀norep : tx₀ ∉ repliedTxs s := fun hmem => p7 tx₀ hmem hmem₀
  refine ⟨?_, ?_, ?_, (List.nodup_cons.mp hnd').2, ?_, ?_, ?_⟩
  · intro tx htx
    rw [hn]
    exact p1 tx (hsub _ htx)
  · intro tx htx
    rw [hn]
    rw [ha] at htx
    rcases List.mem_append.mp htx with hx | hx
    · exact p2 tx hx
    · simp at hx
      subst hx
      exact p1 _ hmem₀
  · intro tx htx
    rw [hn]
    exact p3 tx (by simpa [repliedTxs, hr] using htx)
  · intro tx htx hmem
    rw [ha] at htx
    rcases List.mem_append.mp htx with hx | hx
    · exact p5 tx hx (hsub _ hmem)
    · simp at hx
      subst hx
      exact h₀notin hmem
  · intro tx htx hmem
    rw [ha] at htx
    rcases List.mem_append.mp htx with hx | hx
    · exact p6 tx hx (by simpa [repliedTxs, hr] using hmem)
    · simp at hx
      subst hx
      exact h₀norep (by simpa [repliedTxs, hr] using hmem)
  · intro tx htx hmem
    exact p7 tx (by simpa [repliedTxs, hr] using htx) (hsub _ hmem)

theorem MiniHell.txInv_step {D I O : Type} {handle : D → I → O × D}
    {s s' : MiniState D I O} (h : MiniHell.Step handle s s')
    (hv : MiniHell.TxInv s) : MiniHell.TxInv s' := by
  cases h
  case envAccept i ho =>
      refine MiniHell.txInv_fresh s _ ?_ rfl rfl rfl hv
      have e1 : pendingTxs
          ({ s with instrBuf := s.instrBuf ++ [.message s.nextTx (.inp i)],
                    accepted := s.accepted ++ [i], nextTx := s.nextTx + 1 } :
            MiniState D I O) =
          s.mailbox.map Prod.fst ++ (instrTxs s.instrBuf ++ [s.nextTx]) ++
            phaseTx s.phase := by
        simp [pendingTxs, instrTxs]
      have e2 : pendingTxs s ++ [s.nextTx] =
          (s.mailbox.map Prod.fst ++ instrTxs s.instrBuf ++ phaseTx s.phase) ++
            [s.nextTx] := rfl
      rw [e1, e2]
      exact perm_append_middle _ _ _ _
  case envShutdown vm ho =>
      refine MiniHell.txInv_congr s _ ?_ rfl rfl rfl hv
      have e1 : pendingTxs
          ({ s with instrBuf := s.instrBuf ++ [.shutdown vm],
                    shutdownArrived := true } : MiniState D I O) =
          pendingTxs s := by
        simp [pendingTxs, instrTxs]
      rw [e1]
  case envKill vm ho => exact hv
  case envCloseInstr => exact hv
  case envCloseKills => exact hv
  case killRecv vm rest hp hb =>
      refine MiniHell.txInv_congr s _ ?_ rfl rfl rfl hv
      exact perm_of_eq_list (by simp [pendingTxs, phaseTx, hp])
  case killRecvClosed hp hb ho =>
      refine MiniHell.txInv_congr s _ ?_ rfl rfl rfl hv
      exact perm_of_eq_list (by simp [pendingTxs, phaseTx, hp])
  case deqHandle tx i rest hp hm =>
      refine MiniHell.txInv_congr s _ ?_ rfl rfl rfl hv
      have e1 : pendingTxs
          ({ s with phase := .handling tx i, mailbox := rest,
                    handled := s.handled ++ [i] } : MiniState D I O) =
          rest.map Prod.fst ++ (instrTxs s.instrBuf ++ [tx]) := by
        simp [pendingTxs, instrTxs, phaseTx]
      have e2 : pendingTxs s = tx :: (rest.map Prod.fst ++ instrTxs s.instrBuf) := by
        simp [pendingTxs, phaseTx, hp, hm]
      rw [e1, e2]
      exact perm_snoc_cons _ _ _
  case deqWrongType tx o rest hp hm =>
      refine MiniHell.txInv_reply s _ ?_ rfl rfl rfl hv
      have e1 : pendingTxs
          ({ s with mailbox := rest,
                    replies := s.replies ++ [(tx, .error .WrongType)] } :
            MiniState D I O) =
          rest.map Prod.fst ++ instrTxs s.instrBuf ++ phaseTx s.phase := by
        simp [pendingTxs]
      have e2 : pendingTxs s =
          tx :: (rest.map Prod.fst ++ instrTxs s.instrBuf ++ phaseTx s.phase) := by
        simp [pendingTxs, hm, List.append_assoc]
      rw [e1, e2]
  case instrShutdown vm rest hp hi =>
      refine MiniHell.txInv_congr s _ ?_ rfl rfl rfl hv
      have e1 : pendingTxs
          ({ s with phase := .preVanquish (some vm) false, instrBuf := rest,
                    ksExit := some false } : MiniState D I O) =
          s.mailbox.map Prod.fst ++ instrTxs rest := by
        simp [pendingTxs, phaseTx]
      have e2 : pendingTxs s = s.mailbox.map Prod.fst ++ instrTxs rest := by
        simp [pendingTxs, phaseTx, hp, hi, instrTxs]
      rw [e1, e2]
  case instrMessage tx b rest hp hi =>
      refine MiniHell.txInv_congr s _ ?_ rfl rfl rfl hv
      have e1 : pendingTxs
          ({ s with instrBuf := rest, mailbox := s.mailbox ++ [(tx, b)] } :
            MiniState D I O) =
          s.mailbox.map Prod.fst ++ ([tx] ++ instrTxs rest) ++ phaseTx s.phase := by
        simp [pendingTxs, instrTxs]
      have e2 : pendingTxs s =
          s.mailbox.map Prod.fst ++ ([tx] ++ instrTxs rest) ++ phaseTx s.phase := by
        simp [pendingTxs, instrTxs, hi]
      rw [e1, e2]
  case instrClosed hp hi ho =>
      refine MiniHell.txInv_congr s _ ?_ rfl rfl rfl hv
      exact perm_of_eq_list (by simp [pendingTxs, phaseTx, hp])
  case handleDone tx i hp =>
      refine MiniHell.txInv_reply s _ ?_ rfl rfl rfl hv
      have e1 : pendingTxs
          ({ s with phase := .main, demon := (handle s.demon i).2,
                    replies := s.replies ++
                      [(tx, .ok (.out (handle s.demon i).1))] } :
            MiniState D I O) =
          s.mailbox.map Prod.fst ++ instrTxs s.instrBuf := by
        simp [pendingTxs, phaseTx]
      have e2 : pendingTxs s =
          s.mailbox.map Prod.fst ++ (instrTxs s.instrBuf ++ [tx]) := by
        simp [pendingTxs, phaseTx, hp]
      rw [e1, e2]
      exact perm_snoc_cons _ _ _
  case handleAbort tx i vm rest hp hb =>
      refine MiniHell.txInv_abort s _ ?_ rfl rfl rfl hv
      have e1 : pendingTxs
          ({ s with phase := .preVanquish (some vm) true, killsBuf := rest,
                    aborted := s.aborted ++ [tx], ksExit := some true } :
            MiniState D I O) =
          s.mailbox.map Prod.fst ++ instrTxs s.instrBuf := by
        simp [pendingTxs, phaseTx]
      have e2 : pendingTxs s =
          s.mailbox.map Prod.fst ++ (instrTxs s.instrBuf ++ [tx]) := by
        simp [pendingTxs, phaseTx, hp]
      rw [e1, e2]
      exact perm_snoc_cons _ _ _
  case handleAbortClosed tx i hp hb ho =>
      refine MiniHell.txInv_abort s _ ?_ rfl rfl rfl hv
      have e1 : pendingTxs
          ({ s with phase := .preVanquish none true,
                    aborted := s.aborted ++ [tx], ksExit := some true } :
            MiniState D I O) =
          s.mailbox.map Prod.fst ++ instrTxs s.instrBuf := by
        simp [pendingTxs, phaseTx]
      have e2 : pendingTxs s =
          s.mailbox.map Prod.fst ++ (instrTxs s.instrBuf ++ [tx]) := by
        simp [pendingTxs, phaseTx, hp]
      rw [e1, e2]
      exact perm_snoc_cons _ _ _
  case skipHook vm hp =>
      refine MiniHell.txInv_congr s _ ?_ rfl rfl rfl hv
      exact perm_of_eq_list (by simp [pendingTxs, phaseTx, hp])
  case runHook vm hp =>
      refine MiniHell.txInv_congr s _ ?_ rfl rfl rfl hv
      exact perm_of_eq_list (by simp [pendingTxs, phaseTx, hp])
  case vanqKill vm vm' rest hp hb =>
      refine MiniHell.txInv_congr s _ ?_ rfl rfl rfl hv
      exact perm_of_eq_list (by simp [pendingTxs, phaseTx, hp])
  case vanqKillClosed vm hp hb ho =>
      refine MiniHell.txInv_congr s _ ?_ rfl rfl rfl hv
      exact perm_of_eq_list (by simp [pendingTxs, phaseTx, hp])
  case confirmSend vm hp =>
      refine MiniHell.txInv_congr s _ ?_ rfl rfl rfl hv
      exact perm_of_eq_list (by simp [pendingTxs, phaseTx, hp])
  case exitQuiet hp =>
      refine MiniHell.txInv_congr s _ ?_ rfl rfl rfl hv
      exact perm_of_eq_list (by simp [pendingTxs, phaseTx, hp])

theorem MiniHell.txInv_reach {D I O : Type} {handle : D → I → O × D}
    {s₀ s : MiniState D I O} (h : MiniHell.Reach handle s₀ s)
    (h₀ : MiniHell.TxInv s₀) : MiniHell.TxInv s := by
  induction h with
  | refl => exact h₀
  | tail hab hbc ih => exact MiniHell.txInv_step hbc ih

/-- C5 counterexample: the source's `tokio::select!` carries no `biased;` flag, so
the three event sources race without fixed priority.  In this reachable run a
killswitch message is delivered first and sits in the killswitch channel throughout,
yet the task dequeues an instruction-channel message, re-injects it, invokes
`handle` on it and delivers the reply — the pending killswitch does not win, and an
in-flight `handle` call is not aborted by it. -/
theorem minihell_select_priority_counterexample_c5 :
    MiniHell.Reach natEchoHandle (MiniState.initial ()) c5RaceState ∧
    c5RaceState.killsBuf = [9] ∧ c5RaceState.handled = [5] ∧
    c5RaceState.replies = [(0, .ok (.out 5))] ∧ c5RaceState.aborted = [] := by
  refine ⟨?_, rfl, rfl, rfl, rfl⟩
  refine Relation.ReflTransGen.head (MiniHell.Step.envKill _ 9 rfl) ?_
  refine Relation.ReflTransGen.head (MiniHell.Step.envAccept _ 5 rfl) ?_
  refine Relation.ReflTransGen.head
    (MiniHell.Step.instrMessage _ 0 (AnyBox.inp 5) [] rfl rfl) ?_
  refine Relation.ReflTransGen.head (MiniHell.Step.deqHandle _ 0 5 [] rfl rfl) ?_
  refine Relation.ReflTransGen.head (MiniHell.Step.handleDone _ 0 5 rfl) ?_
  exact Relation.ReflTransGen.refl

/-- C5 (amended): the three select branches race with no fixed priority (the select
is unbiased), but the killswitch can abort an in-flight `handle` call by winning the
inner race, and the reply channel of a `handle` call aborted this way never receives
a value: in every reachable state, no aborted reply token ever appears among the
tokens that received a reply. -/
theorem minihell_aborted_no_reply_c5 {D I O : Type} (handle : D → I → O × D)
    (d : D) (s : MiniState D I O)
    (h : MiniHell.Reach handle (MiniState.initial d) s) :
    ∀ tx ∈ s.aborted, tx ∉ repliedTxs s := by
  have h₀ : MiniHell.TxInv (MiniState.initial (I := I) (O := O) d) := by
    refine ⟨?_, ?_, ?_, ?_, ?_, ?_, ?_⟩ <;>
      simp [MiniState.initial, pendingTxs, instrTxs, phaseTx, repliedTxs]
  exact (MiniHell.txInv_reach h h₀).2.2.2.2.2.1

/-- C5 witness: a run in which the `handle` call for token 0 is aborted by the
killswitch; its reply channel never received a value. -/
theorem minihell_aborted_no_reply_c5_witness :
    MiniHell.Reach natEchoHandle (MiniState.initial ()) c5AbortState ∧
    0 ∈ c5AbortState.aborted ∧ 0 ∉ repliedTxs c5AbortState := by
  have hreach : MiniHell.Reach natEchoHandle (MiniState.initial ()) c5AbortState := by
    refine Relation.ReflTransGen.head (MiniHell.Step.envAccept _ 5 rfl) ?_
    refine Relation.ReflTransGen.head
      (MiniHell.Step.instrMessage _ 0 (AnyBox.inp 5) [] rfl rfl) ?_
    refine Relation.ReflTransGen.head (MiniHell.Step.deqHandle _ 0 5 [] rfl rfl) ?_
    refine Relation.ReflTransGen.head (MiniHell.Step.envKill _ 9 rfl) ?_
    refine Relation.ReflTransGen.head
      (MiniHell.Step.handleAbort _ 0 5 9 [] rfl rfl) ?_
    exact Relation.ReflTransGen.refl
  exact ⟨hreach, by simp [c5AbortState],
    minihell_aborted_no_reply_c5 natEchoHandle () c5AbortState hreach 0
      (by simp [c5AbortState])⟩

/-! ### Channel-closure behaviour of the actor task (C10) -/

theorem MiniHell.quietInv_step {D I O : Type} {handle : D → I → O × D}
    {s s' : MiniState D I O} (h : MiniHell.Step handle s s')
    (hv : MiniHell.QuietInv s) : MiniHell.QuietInv s' := by
  cases h
  case envAccept i ho =>
      intro hk hs
      obtain ⟨hb, hin, hpv, hpc, hcf⟩ := hv hk hs
      refine ⟨hb, fun vm => ?_, hpv, hpc, hcf⟩
      simp only [List.mem_append, List.mem_singleton]
      rintro (hmem | hmem)
      · exact hin vm hmem
      · simp at hmem
  case envShutdown vm ho => intro hk hs; simp at hs
  case envKill vm ho => intro hk hs; simp at hk
  case envCloseInstr => exact hv
  case envCloseKills => exact hv
  case killRecv vm rest hp hb =>
      intro hk hs
      obtain ⟨hb', h2, h3, h4, h5⟩ := hv hk hs
      exact absurd (hb.symm.trans hb') (by simp)
  case killRecvClosed hp hb ho =>
      intro hk hs
      obtain ⟨hb', h2, h3, h4, h5⟩ := hv hk hs
      exact ⟨hb', h2, by simp, by simp, h5⟩
  case deqHandle tx i rest hp hm =>
      intro hk hs
      obtain ⟨hb', h2, h3, h4, h5⟩ := hv hk hs
      exact ⟨hb', h2, by simp, by simp, h5⟩
  case deqWrongType tx o rest hp hm => exact hv
  case instrShutdown vm rest hp hi =>
      intro hk hs
      obtain ⟨hb', h2, h3, h4, h5⟩ := hv hk hs
      exact absurd (by rw [hi]; exact List.mem_cons_self _ _) (h2 vm)
  case instrMessage tx b rest hp hi =>
      intro hk hs
      obtain ⟨hb', h2, h3, h4, h5⟩ := hv hk hs
      refine ⟨hb', fun vm hmem => h2 vm ?_, h3, h4, h5⟩
      rw [hi]
      exact List.mem_cons_of_mem _ hmem
  case instrClosed hp hi ho =>
      intro hk hs
      obtain ⟨hb', h2, h3, h4, h5⟩ := hv hk hs
      exact ⟨hb', h2, by simp, by simp, h5⟩
  case handleDone tx i hp =>
      intro hk hs
      obtain ⟨hb', h2, h3, h4, h5⟩ := hv hk hs
      exact ⟨hb', h2, by simp, by simp, h5⟩
  case handleAbort tx i vm rest hp hb =>
      intro hk hs
      obtain ⟨hb', h2, h3, h4, h5⟩ := hv hk hs
      exact absurd (hb.symm.trans hb') (by simp)
  case handleAbortClosed tx i hp hb ho =>
      intro hk hs
      obtain ⟨hb', h2, h3, h4, h5⟩ := hv hk hs
      exact ⟨hb', h2, by simp, by simp, h5⟩
  case skipHook vm hp =>
      intro hk hs
      obtain ⟨hb', h2, h3, h4, h5⟩ := hv hk hs
      cases vm with
      | none => exact ⟨hb', h2, by simp, by simp, h5⟩
      | some v => exact absurd hp (h3 v true)
  case runHook vm hp =>
      intro hk hs
      obtain ⟨hb', h2, h3, h4, h5⟩ := hv hk hs
      cases vm with
      | none => exact ⟨hb', h2, by simp, by simp, h5⟩
      | some v => exact absurd hp (h3 v false)
  case vanqKill vm vm' rest hp hb =>
      intro hk hs
      obtain ⟨hb', h2, h3, h4, h5⟩ := hv hk hs
      exact absurd (hb.symm.trans hb') (by simp)
  case vanqKillClosed vm hp hb ho =>
      intro hk hs
      obtain ⟨hb', h2, h3, h4, h5⟩ := hv hk hs
      cases vm with
      | none => exact ⟨hb', h2, by simp, by simp, h5⟩
      | some v => exact absurd hp (h3 v false)
  case confirmSend vm hp =>
      intro hk hs
      obtain ⟨hb', h2, h3, h4, h5⟩ := hv hk hs
      exact absurd hp (h4 vm)
  case exitQuiet hp =>
      intro hk hs
      obtain ⟨hb', h2, h3, h4, h5⟩ := hv hk hs
      exact ⟨hb', h2, by simp, by simp, h5⟩

theorem MiniHell.quietInv_reach {D I O : Type} {handle : D → I → O × D}
    {s₀ s : MiniState D I O} (h : MiniHell.Reach handle s₀ s)
    (h₀ : MiniHell.QuietInv s₀) : MiniHell.QuietInv s := by
  induction h with
  | refl => exact h₀
  | tail hab hbc ih => exact MiniHell.quietInv_step hbc ih

/-- C10 counterexample: with both channels closed and no `Shutdown` or killswitch
ever delivered, the task can break its loop through the closed-killswitch branch
(mini_hell.rs lines 58-62, `break (None, true)`), which marks the exit killswitched
and skips `Demon::vanquished` entirely — refuting the claim that the hook is always
invoked on this path.  The run ends terminated, hook not run, no confirmation. -/
theorem minihell_orphan_counterexample_c10 :
    MiniHell.Reach natEchoHandle (MiniState.initial ()) c10KillState ∧
    c10KillState.instrOpen = false ∧ c10KillState.killsOpen = false ∧
    c10KillState.killArrived = false ∧ c10KillState.shutdownArrived = false ∧
    c10KillState.phase = .finished ∧ c10KillState.hookRan = false ∧
    c10KillState.confirms = [] := by
  refine ⟨?_, rfl, rfl, rfl, rfl, rfl, rfl, rfl⟩
  refine Relation.ReflTransGen.head (MiniHell.Step.envCloseInstr _) ?_
  refine Relation.ReflTransGen.head (MiniHell.Step.envCloseKills _) ?_
  refine Relation.ReflTransGen.head
    (MiniHell.Step.killRecvClosed _ rfl rfl rfl) ?_
  refine Relation.ReflTransGen.head (MiniHell.Step.skipHook _ none rfl) ?_
  refine Relation.ReflTransGen.head (MiniHell.Step.exitQuiet _ rfl) ?_
  exact Relation.ReflTransGen.refl

/-- C10 (amended): if every sender of the instruction and killswitch channels closes
without any `Shutdown` or killswitch delivered, the task exits its loop and
terminates without sending any confirmation, but the `vanquished` hook is not
guaranteed: it runs only when the select races resolve toward it (second conjunct:
a terminating run through `Demon::vanquished` exists), and it is skipped when the
closed killswitch channel is observed first. -/
theorem minihell_orphan_amended_c10 {D I O : Type} (handle : D → I → O × D)
    (d : D) :
    (∀ s : MiniState D I O, MiniHell.Reach handle (MiniState.initial d) s →
      s.killArrived = false → s.shutdownArrived = false → s.confirms = []) ∧
    (MiniHell.Reach natEchoHandle (MiniState.initial ()) c10HookState ∧
      c10HookState.instrOpen = false ∧ c10HookState.killsOpen = false ∧
      c10HookState.phase = .finished ∧ c10HookState.hookRan = true ∧
      c10HookState.confirms = []) := by
  constructor
  · intro s h hk hs
    have h₀ : MiniHell.QuietInv (MiniState.initial (I := I) (O := O) d) := by
      intro _ _
      simp [MiniState.initial]
    exact (MiniHell.quietInv_reach h h₀ hk hs).2.2.2.2
  · refine ⟨?_, rfl, rfl, rfl, rfl, rfl⟩
    refine Relation.ReflTransGen.head (MiniHell.Step.envCloseInstr _) ?_
    refine Relation.ReflTransGen.head (MiniHell.Step.envCloseKills _) ?_
    refine Relation.ReflTransGen.head
      (MiniHell.Step.instrClosed _ rfl rfl rfl) ?_
    refine Relation.ReflTransGen.head (MiniHell.Step.runHook _ none rfl) ?_
    refine Relation.ReflTransGen.head (MiniHell.Step.exitQuiet _ rfl) ?_
    exact Relation.ReflTransGen.refl

/-- C10 witness: the closed-channel run through the killswitch branch ends with no
confirmation sent, as the amended theorem demands. -/
theorem minihell_orphan_amended_c10_witness :
    MiniHell.Reach natEchoHandle (MiniState.initial ()) c10KillState ∧
    c10KillState.killArrived = false ∧ c10KillState.shutdownArrived = false ∧
    c10KillState.confirms = [] := by
  have hreach : MiniHell.Reach natEchoHandle (MiniState.initial ()) c10KillState := by
    refine Relation.ReflTransGen.head (MiniHell.Step.envCloseInstr _) ?_
    refine Relation.ReflTransGen.head (MiniHell.Step.envCloseKills _) ?_
    refine Relation.ReflTransGen.head
      (MiniHell.Step.killRecvClosed _ rfl rfl rfl) ?_
    refine Relation.ReflTransGen.head (MiniHell.Step.skipHook _ none rfl) ?_
    refine Relation.ReflTransGen.head (MiniHell.Step.exitQuiet _ rfl) ?_
    exact Relation.ReflTransGen.refl
  exact ⟨hreach, rfl, rfl,
    (minihell_orphan_amended_c10 natEchoHandle ()).1 c10KillState hreach rfl rfl⟩

/-! ### Extinguish cleanup, send error paths, replica pool, echo round trip -/

/-- C6 (code bug): in the no-timeout extinguish cleanup of `Hell::ignite`, the
per-demon `killswitch_tx` oneshot sender is dropped at the end of the `for`
iteration because it is only moved into a timer task when a timeout is set; the
waiter's `select!` therefore completes immediately with a `RecvError` on the
`killswitch` branch, `join_all` returns, and the broker sends the extinguish reply
before the demon's `vanquished` hook has run — contradicting `Gate::extinguish`'s
documentation that with `wait = true` "the broker will wait for every single demon
to finish the vanquished method".  The run below is a reachable interleaving whose
final state has the reply sent and the hook not run. -/
theorem extinguish_reply_before_hook_c6 :
    Extinguish.Reach ExtinguishState.start extReplyNoHookState ∧
    extReplyNoHookState.replySent = true ∧
    extReplyNoHookState.hookRan = false ∧
    extReplyNoHookState.confirmSent = false := by
  refine ⟨?_, rfl, rfl, rfl⟩
  refine Relation.ReflTransGen.head (Extinguish.Step.demonShutdown _ rfl) ?_
  refine Relation.ReflTransGen.head (Extinguish.Step.dropKsTx _ rfl) ?_
  refine Relation.ReflTransGen.head (Extinguish.Step.waiterKillErr _ rfl rfl) ?_
  refine Relation.ReflTransGen.head (Extinguish.Step.extinguishReply _ rfl rfl) ?_
  exact Relation.ReflTransGen.refl

/-- C7 counterexample: for an address that is still registered but whose actor
task's instruction channel is closed, the broker drops the reply sender inside the
unsent instruction without answering, so `Gate::send` fails with
`Error::TokioSend("channel closed")` (the mapped oneshot `RecvError`), not with
`Error::DemonCommunication` as the claim states. -/
theorem gate_send_closed_counterexample_c7 :
    Gate.sendResult (I := Nat) (O := Nat) c7ClosedState 0 (.ok (.out 0)) =
      .error (.TokioSend "channel closed") ∧
    Gate.sendResult (I := Nat) (O := Nat) c7ClosedState 0 (.ok (.out 0)) ≠
      .error .DemonCommunication := by
  exact ⟨rfl, by decide⟩

/-- C7 (amended): `Gate::send` fails with `InvalidLocation` when the address is not
registered and with `WrongType` on an output downcast mismatch, as claimed; but when
the address is registered and the actor task's channel is closed it fails with
`TokioSend` (the reply oneshot's receive error), because the broker never replies on
that path — `DemonCommunication` is only produced by the `RemoveDemon` handler.  On
the success path the downcast output is returned unchanged. -/
theorem gate_send_errors_c7 {I O : Type} (s : HellState) (a : Nat)
    (reply : Except Error (AnyBox I O)) :
    (∀ dc, regLookup s.demons a = some dc → dc.instrOpen = false →
      Gate.sendResult s a reply = .error (.TokioSend "channel closed")) ∧
    (regLookup s.demons a = none →
      Gate.sendResult s a reply = .error .InvalidLocation) ∧
    (∀ dc b, regLookup s.demons a = some dc → dc.instrOpen = true →
      reply = .ok b → b.downcastOutput = none →
      Gate.sendResult s a reply = .error .WrongType) ∧
    (∀ dc b o, regLookup s.demons a = some dc → dc.instrOpen = true →
      reply = .ok b → b.downcastOutput = some o →
      Gate.sendResult s a reply = .ok o) := by
  refine ⟨?_, ?_, ?_, ?_⟩
  · intro dc hl hdc
    simp [Gate.sendResult, Hell.processInstruction, hl, hdc]
  · intro hl
    simp [Gate.sendResult, Hell.processInstruction, hl]
  · intro dc b hl hdc hr hb
    simp [Gate.sendResult, Hell.processInstruction, hl, hdc, hr, hb]
  · intro dc b o hl hdc hr hb
    simp [Gate.sendResult, Hell.processInstruction, hl, hdc, hr, hb]

/-- C7 witness: a send to the never-registered address 0 of a fresh broker fails
with `InvalidLocation`. -/
theorem gate_send_errors_c7_witness :
    regLookup HellState.initial.demons 0 = none ∧
    Gate.sendResult (I := Nat) (O := Nat) HellState.initial 0 (.ok (.out 0)) =
      .error .InvalidLocation :=
  ⟨rfl, (gate_send_errors_c7 HellState.initial 0 (.ok (.out 0))).2.1 rfl⟩

/-- C8 (code bug): `MultipleMiniHell::spawn` performs no validation of the replica
count — `Error::WrongReplicas`, documented "the replicas parameter supplied needs to
be at least 1", is never constructed anywhere — so `Gate::spawn_multiple` with
`replica_count = 0` succeeds and returns a `Location` backed by an empty pool
instead of failing.  The factory is still invoked exactly once per replica (the
counting factory ends at 3 after building 3 replicas). -/
theorem spawn_multiple_no_validation_c8 :
    Gate.spawnMultipleResult (fun n : Nat => ((), n + 1)) 0 0 99 = .ok 99 ∧
    MultipleMiniHell.spawnModel (fun n : Nat => ((), n + 1)) 0 0 = .ok ([], 0) ∧
    (MultipleMiniHell.buildReplicas (fun n : Nat => ((), n + 1)) 3 0).2 = 3 :=
  ⟨rfl, rfl, rfl⟩

/-- C9: for every value `v` of the actor's input type, the echo round trip is the
identity: `Gate::send` boxes `v`, the `MiniHell` body downcasts it to the input
type, the echo `handle` returns it, the output is boxed and `Gate::send` downcasts
it back — composing to exactly `v` whenever the actor is registered and alive. -/
theorem gate_send_echo_roundtrip_c9 {I D : Type} (d : D) (s : HellState) (a : Nat)
    (v : I) (dc : DemonChannels) (hl : regLookup s.demons a = some dc)
    (hdc : dc.instrOpen = true) :
    Gate.sendRoundTrip (fun d i => (i, d)) d s a v = .ok v := by
  simp [Gate.sendRoundTrip, Gate.sendResult, Gate.boxInput, MiniHell.handleBoxed,
    AnyBox.downcastInput, AnyBox.downcastOutput, Hell.processInstruction, hl, hdc]

/-- C9 witness: the echo round trip at the concrete value 5 through a live demon. -/
theorem gate_send_echo_roundtrip_c9_witness :
    regLookup c9LiveState.demons 0 = some ⟨true, true⟩ ∧
    Gate.sendRoundTrip (fun (d : Unit) (i : Nat) => (i, d)) () c9LiveState 0 5 =
      .ok 5 :=
  ⟨rfl, gate_send_echo_roundtrip_c9 () c9LiveState 0 5 ⟨true, true⟩ rfl rfl⟩

/-- C3 witness: registering on the occupied address 0 is refused and leaves the
broker state unchanged. -/
theorem hell_address_uniqueness_c3_witness :
    regLookup (Hell.run HellState.initial
        [.createAddress true, .registerDemon 0 ⟨true, true⟩ true]).1.demons 0 ≠
      none ∧
    Hell.processInstruction
        (Hell.run HellState.initial
          [.createAddress true, .registerDemon 0 ⟨true, true⟩ true]).1
        (.registerDemon 0 ⟨false, false⟩ true) =
      ((Hell.run HellState.initial
          [.createAddress true, .registerDemon 0 ⟨true, true⟩ true]).1,
        .occupied 0) :=
  ⟨by decide,
    hell_address_uniqueness_c3.2.2.2.2.2
      (Hell.run HellState.initial
        [.createAddress true, .registerDemon 0 ⟨true, true⟩ true]).1
      0 ⟨false, false⟩ (by decide)⟩

end Apocalypse
